import Mathlib

/-!
Verification of the ENR / RLP decoder of `src/network/decodeENR.py`
(migalabs/eth-research) against its natural-language specification.

The Python module is shallowly embedded: bytes become `List Nat` (each
entry a byte value 0..255), Python exceptions become an explicit error
type carried by `Except`, and the recursive RLP descent is written with
an explicit fuel parameter (the top-level entry point supplies fuel that
is provably sufficient, see `rlpNoFuelOut`).  Python slices
`data[a:b]` truncate silently at the end of the buffer; `pySlice`
reproduces that.  Dynamic error messages (Python f-strings interpolating
counts) are modelled by their static text.
-/

set_option maxRecDepth 10000

/-- The decoded RLP tree: Python returns either `bytes` or `list`. -/
inductive Node where
  | bytes (b : List Nat)
  | list (l : List Node)
deriving Repr

mutual

/-- Decidable equality for `Node` (written by hand because `Node` nests
`List Node`). -/
def Node.decEq : (a b : Node) → Decidable (a = b)
  | .bytes a, .bytes b =>
    if h : a = b then .isTrue (by rw [h])
    else .isFalse (by intro hh; cases hh; exact h rfl)
  | .bytes _, .list _ => .isFalse nofun
  | .list _, .bytes _ => .isFalse nofun
  | .list a, .list b =>
    match Node.decEqList a b with
    | .isTrue h => .isTrue (by rw [h])
    | .isFalse h => .isFalse (by intro hh; cases hh; exact h rfl)

/-- Decidable equality for lists of `Node`. -/
def Node.decEqList : (a b : List Node) → Decidable (a = b)
  | [], [] => .isTrue rfl
  | [], _ :: _ => .isFalse nofun
  | _ :: _, [] => .isFalse nofun
  | a :: as, b :: bs =>
    match Node.decEq a b with
    | .isFalse h => .isFalse (by intro hh; cases hh; exact h rfl)
    | .isTrue h1 =>
      match Node.decEqList as bs with
      | .isFalse h => .isFalse (by intro hh; cases hh; exact h rfl)
      | .isTrue h2 => .isTrue (by rw [h1, h2])

end

instance : DecidableEq Node := Node.decEq

/-- Python exception kinds raised by the module (ValueError covers
`binascii.Error` and `UnicodeDecodeError`, both subclasses).  `fuelOut`
is an artefact of the fuel-based embedding and is proved unreachable
for the fuel used by `rlp_decode`. -/
inductive PyErr where
  | valueError (msg : String)
  | typeError
  | attributeError
  | indexError
  | fuelOut
deriving Repr, DecidableEq

/-- Python `int.from_bytes(b, "big")`. -/
def beNat (b : List Nat) : Nat := b.foldl (fun a x => a * 256 + x) 0

/-- Python slice `data[a:b]` (for `a ≤ b`): truncates at the end. -/
def pySlice (data : List Nat) (a b : Nat) : List Nat :=
  (data.drop a).take (b - a)

mutual

/-- Source `_rlp_decode_at(data, pos)`: decode one RLP node starting at `pos`,
returning the node and the position just after it.  First argument is
fuel for the recursion. -/
def rlpDecodeAt : Nat → List Nat → Nat → Except PyErr (Node × Nat)
  | 0, _, _ => .error .fuelOut
  | fuel + 1, data, pos =>
    if data.length ≤ pos then .error (.valueError "RLP decode out of range")
    else
      let b0 := data.getD pos 0
      -- Single byte (0x00-0x7f)
      if b0 ≤ 0x7f then .ok (.bytes [b0], pos + 1)
      -- Short string
      else if b0 ≤ 0xb7 then
        let length := b0 - 0x80
        if length = 0 then .ok (.bytes [], pos + 1)
        else
          let start := pos + 1
          let stop := start + length
          .ok (.bytes (pySlice data start stop), stop)
      -- Long string
      else if b0 ≤ 0xbf then
        let lenOfLen := b0 - 0xb7
        let start := pos + 1
        let stop := start + lenOfLen
        let length := beNat (pySlice data start stop)
        .ok (.bytes (pySlice data stop (stop + length)), stop + length)
      else if b0 ≤ 0xf7 then
        -- Short list
        let length := b0 - 0xc0
        let start := pos + 1
        let stop := start + length
        match rlpDecodeItems fuel data start stop with
        | .error e => .error e
        | .ok (items, p) =>
          if p ≠ stop then .error (.valueError "RLP list length mismatch (short list)")
          else .ok (.list items, stop)
      else if b0 ≤ 0xff then
        -- Long list
        let lenOfLen := b0 - 0xf7
        let start := pos + 1
        let stop := start + lenOfLen
        let length := beNat (pySlice data start stop)
        let lStop := stop + length
        match rlpDecodeItems fuel data stop lStop with
        | .error e => .error e
        | .ok (items, p) =>
          if p ≠ lStop then .error (.valueError "RLP list length mismatch (long list)")
          else .ok (.list items, lStop)
      else .error (.valueError "Invalid RLP prefix")

/-- The `while p < end` child-decoding loop of `_rlp_decode_at`: decode
children from `p` while `p < stop`, returning them with the final
position (the caller checks it equals `stop`). -/
def rlpDecodeItems : Nat → List Nat → Nat → Nat → Except PyErr (List Node × Nat)
  | 0, _, _, _ => .error .fuelOut
  | fuel + 1, data, p, stop =>
    if p < stop then
      match rlpDecodeAt fuel data p with
      | .error e => .error e
      | .ok (item, p') =>
        match rlpDecodeItems fuel data p' stop with
        | .error e => .error e
        | .ok (items, pf) => .ok (item :: items, pf)
    else .ok ([], p)

end

/-- Source `rlp_decode(data)`: decode a top-level RLP node and require the
whole buffer to be consumed.  The fuel `2 * data.length + 1` is
sufficient (`rlpNoFuelOut`, `rlp_decode_noFuelOut`). -/
def rlp_decode (data : List Nat) : Except PyErr Node :=
  match rlpDecodeAt (2 * data.length + 1) data 0 with
  | .error e => .error e
  | .ok (obj, p) =>
    if p ≠ data.length then .error (.valueError "Trailing bytes after RLP item")
    else .ok obj

/-! ## Base64url decoding (`_b64url_decode_nopad`)

`base64.urlsafe_b64decode` translates `-`/`_` to `+`/`/` and calls the
lenient `binascii.a2b_base64`: characters outside the alphabet are
skipped, `=` is a state-dependent terminator, and a leftover partial
quad at the end is an error.  The state below is (quad position 0-3,
pending bits, count of pad characters seen at quad position >= 2). -/

/-- Value of a base64 alphabet character after the urlsafe translation
(`-` ~ `+`, `_` ~ `/`); `none` for characters outside the alphabet. -/
def b64DigitVal (c : Char) : Option Nat :=
  if 'A' ≤ c ∧ c ≤ 'Z' then some (c.toNat - 65)
  else if 'a' ≤ c ∧ c ≤ 'z' then some (c.toNat - 97 + 26)
  else if '0' ≤ c ∧ c ≤ '9' then some (c.toNat - 48 + 52)
  else if c = '+' ∨ c = '-' then some 62
  else if c = '/' ∨ c = '_' then some 63
  else none

/-- The character loop of `binascii.a2b_base64` in non-strict mode. -/
def a2bBase64Loop : List Char → Nat → Nat → Nat → List Nat → Except PyErr (List Nat)
  | [], qp, _, _, out =>
    if qp = 0 then .ok out
    else if qp = 1 then
      .error (.valueError "Invalid base64-encoded string: wrong number of data characters")
    else .error (.valueError "Incorrect padding")
  | c :: rest, qp, pend, pads, out =>
    if c = '=' then
      if 2 ≤ qp ∧ 4 ≤ qp + (pads + 1) then .ok out
      else a2bBase64Loop rest qp pend (if 2 ≤ qp then pads + 1 else pads) out
    else
      match b64DigitVal c with
      | none => a2bBase64Loop rest qp pend pads out
      | some v =>
        match qp with
        | 0 => a2bBase64Loop rest 1 v 0 out
        | 1 => a2bBase64Loop rest 2 (v % 16) 0 (out ++ [pend * 4 + v / 16])
        | 2 => a2bBase64Loop rest 3 (v % 4) 0 (out ++ [pend * 16 + v / 4])
        | _ => a2bBase64Loop rest 0 0 0 (out ++ [pend * 64 + v])

/-- Source `_b64url_decode_nopad(s)`: add `=` padding up to a multiple of 4
characters, then decode.  Non-ASCII characters make `base64.b64decode`
raise a `ValueError` before decoding. -/
def b64urlDecodeNopad (s : List Char) : Except PyErr (List Nat) :=
  if s.any (fun c => 128 ≤ c.toNat) then
    .error (.valueError "string argument should contain only ASCII characters")
  else
    a2bBase64Loop (s ++ List.replicate ((4 - s.length % 4) % 4) '=') 0 0 0 []

/-! ## UTF-8 validity (`bytes.decode("utf-8", errors="strict")`)

Python dictionary keys are the decoded strings; since strict UTF-8
decoding is injective, the embedding keeps keys as their byte lists and
carries validity as a predicate. -/

/-- A UTF-8 continuation byte. -/
def isCont (b : Nat) : Bool := 0x80 ≤ b ∧ b ≤ 0xbf

/-- Strict UTF-8 validity of a byte list (rejects overlong forms,
surrogates and code points above U+10FFFF, as CPython does). -/
def utf8Valid : List Nat → Bool
  | [] => true
  | b :: rest =>
    if b ≤ 0x7f then utf8Valid rest
    else if 0xc2 ≤ b ∧ b ≤ 0xdf then
      match rest with
      | c1 :: r => isCont c1 && utf8Valid r
      | [] => false
    else if 0xe0 ≤ b ∧ b ≤ 0xef then
      match rest with
      | c1 :: c2 :: r =>
        (if b = 0xe0 then decide (0xa0 ≤ c1 ∧ c1 ≤ 0xbf)
         else if b = 0xed then decide (0x80 ≤ c1 ∧ c1 ≤ 0x9f)
         else isCont c1) && isCont c2 && utf8Valid r
      | _ => false
    else if 0xf0 ≤ b ∧ b ≤ 0xf4 then
      match rest with
      | c1 :: c2 :: c3 :: r =>
        (if b = 0xf0 then decide (0x90 ≤ c1 ∧ c1 ≤ 0xbf)
         else if b = 0xf4 then decide (0x80 ≤ c1 ∧ c1 ≤ 0x8f)
         else isCont c1) && isCont c2 && isCont c3 && utf8Valid r
      | _ => false
    else false

/-! ## ENR helpers -/

/-- UTF-8 bytes of an ASCII string literal (used for the well-known
keys, all ASCII). -/
def asciiBytes (s : String) : List Nat := s.data.map Char.toNat

/-- Source `_bytes_to_int(b)` on actual bytes: big-endian, empty gives 0. -/
def pyBytesToInt (b : List Nat) : Nat := if b.isEmpty then 0 else beNat b

/-- Source `_bytes_to_int` applied to a decoded RLP value, as `decode_enr` does
for `seq` and the port-like fields: a non-empty Python `list` makes
`int.from_bytes` raise `TypeError`; an empty list is falsy and gives 0. -/
def bytesToIntNode : Node → Except PyErr Nat
  | .bytes b => .ok (pyBytesToInt b)
  | .list [] => .ok 0
  | .list (_ :: _) => .error .typeError

/-- One lowercase hex digit. -/
def hexDigitChar (n : Nat) : Char := Char.ofNat (if n < 10 then 48 + n else 87 + n)

/-- Python `bytes.hex()`. -/
def bytesHex (b : List Nat) : List Char :=
  (b.map (fun x => [hexDigitChar (x / 16), hexDigitChar (x % 16)])).flatten

/-- Source `_hex0x(b)`. -/
def hex0x (b : List Nat) : String := "0x" ++ String.mk (bytesHex b)

/-- Source `_hex0x` applied to a decoded RLP value (`.hex()` on a Python list
raises `AttributeError`). -/
def hex0xNode : Node → Except PyErr String
  | .bytes b => .ok (hex0x b)
  | .list _ => .error .attributeError

/-- Result of `_try_utf8`: the decoded string (represented losslessly by
its UTF-8 bytes) or the raw bytes unchanged. -/
inductive StrOrBytes where
  | utf8Str (b : List Nat)
  | raw (b : List Nat)
deriving Repr, DecidableEq

/-- Source `_try_utf8(b)`. -/
def tryUtf8 (b : List Nat) : StrOrBytes :=
  if utf8Valid b then .utf8Str b else .raw b

/-- Source `_try_utf8` applied to a decoded RLP value (`.decode` on a Python
list raises `AttributeError`). -/
def tryUtf8Node : Node → Except PyErr StrOrBytes
  | .bytes b => .ok (tryUtf8 b)
  | .list _ => .error .attributeError

/-- Result of `_decode_ip`.  For a Python list of length 4 the
`".".join(str(x) ...)` succeeds and joins the `repr` of each element;
that text is not needed by any claim and is kept symbolic. -/
inductive IpView where
  | str (s : String)
  | reprJoin (l : List Node)
deriving Repr, DecidableEq

/-- Source `_decode_ip` on bytes: length 4 gives dotted decimal, length 16
gives 8 colon-separated hex groups, anything else plain hex. -/
def ipRenderBytes (b : List Nat) : IpView :=
  if b.length = 4 then .str (String.intercalate "." (b.map toString))
  else if b.length = 16 then
    .str (String.intercalate ":"
      ((List.range 8).map (fun i => String.mk (bytesHex (pySlice b (2 * i) (2 * i + 2))))))
  else .str (String.mk (bytesHex b))

/-- Source `_decode_ip` applied to a decoded RLP value: on a Python list of
length 4 the elementwise join succeeds, any other list length calls
`.hex()` on a list and raises `AttributeError`. -/
def decodeIpNode : Node → Except PyErr IpView
  | .bytes b => .ok (ipRenderBytes b)
  | .list l =>
    if l.length = 4 then .ok (.reprJoin l)
    else .error .attributeError

/-- Result of `_decode_eth2_forkid`. -/
inductive Eth2View where
  | forkid (fork_digest next_fork_version : String) (next_fork_epoch : Nat)
  | mismatch (raw : String)
deriving Repr, DecidableEq

/-- Source `_decode_eth2_forkid(v)` on bytes. -/
def decodeEth2Forkid (v : List Nat) : Eth2View :=
  if v.length ≠ 16 then .mismatch (hex0x v)
  else .forkid (hex0x (pySlice v 0 4)) (hex0x (pySlice v 4 8)) (beNat (pySlice v 8 16))

/-- Source `_decode_eth2_forkid` applied to a decoded RLP value: both branches
call `.hex()` on the value (or on a slice of it), so a Python list of
any length raises `AttributeError`. -/
def decodeEth2Node : Node → Except PyErr Eth2View
  | .bytes b => .ok (decodeEth2Forkid b)
  | .list _ => .error .attributeError

/-! ## The flattened key/value map

Python's `dict` with string keys, kept as an insertion-ordered
association list with byte-list keys (strict UTF-8 decoding is
injective, so byte-list equality coincides with decoded-string
equality). -/

/-- The flattened map: insertion-ordered `key bytes -> value` pairs. -/
abbrev KV := List (List Nat × Node)

/-- Python `key in kv`. -/
def kvHasKey (kv : KV) (k : List Nat) : Bool := kv.any (fun p => p.1 = k)

/-- Python `kv[key]` (first entry with that key; keys are unique by
construction). -/
def kvGet? (kv : KV) (k : List Nat) : Option Node :=
  (List.find? (fun p => p.1 = k) kv).map Prod.snd

/-- Python `kv[key] = v`: overwrite in place if the key is present (Python
dicts keep the original position), else append. -/
def kvInsert (kv : KV) (k : List Nat) (v : Node) : KV :=
  if kvHasKey kv k then kv.map (fun p => if p.1 = k then (k, v) else p)
  else kv ++ [(k, v)]

/-- The value normalization of `decode_enr`: an empty Python list is
stored as empty bytes, everything else unchanged. -/
def normVal : Node → Node
  | .list [] => .bytes []
  | v => v

/-- The `for i in range(2, len(rlp), 2)` loop of `decode_enr`: consume
the tail two elements at a time, checking each key is bytes and valid
UTF-8, normalizing values, inserting in input order.  The singleton
case is unreachable because `decode_enr` checks the pair count first
(Python would raise `IndexError` there). -/
def buildKVAux : List Node → KV → Except PyErr KV
  | [], kv => .ok kv
  | kRaw :: vRaw :: rest, kv =>
    match kRaw with
    | .list _ => .error (.valueError "ENR keys must be bytes")
    | .bytes kb =>
      if utf8Valid kb then buildKVAux rest (kvInsert kv kb (normVal vRaw))
      else .error (.valueError "UnicodeDecodeError")
  | [_], _ => .error .indexError

/-! ## `decode_enr` output -/

/-- A `raw_kv` entry: bytes are rendered as `0x`-hex, anything else
(a non-empty list after normalization) is passed through unchanged. -/
inductive RawKVVal where
  | hexStr (s : String)
  | node (n : Node)
deriving Repr, DecidableEq

/-- An `extras` entry: byte values get the three renderings (hex
always, UTF-8 text when valid, integer when at most 8 bytes long);
anything else is stored bare under `value`. -/
inductive ExtraVal where
  | rendered (hex : String) (utf8 : Option (List Nat)) (int : Option Nat)
  | value (v : Node)
deriving Repr, DecidableEq

/-- The dictionary returned by `decode_enr`, with one optional field
per well-known key (`none` when the key is absent from the record). -/
structure ENROut where
  seq : Nat
  signature : String
  raw_kv : List (List Nat × RawKVVal)
  idView : Option StrOrBytes
  ip : Option IpView
  ip6 : Option IpView
  udp : Option Nat
  tcp : Option Nat
  quic : Option Nat
  udp6 : Option Nat
  tcp6 : Option Nat
  quic6 : Option Nat
  secp256k1 : Option String
  eth2 : Option Eth2View
  nfd : Option String
  attnets : Option String
  syncnets : Option String
  cgc : Option Nat
  extras : List (List Nat × ExtraVal)
  role_guess : String
deriving Repr, DecidableEq

/-- The well-known keys skipped by the extras loop of `decode_enr`. -/
def wellKnownKeys : List (List Nat) :=
  [asciiBytes "id", asciiBytes "ip", asciiBytes "ip6", asciiBytes "udp", asciiBytes "tcp",
   asciiBytes "quic", asciiBytes "udp6", asciiBytes "tcp6", asciiBytes "quic6",
   asciiBytes "secp256k1", asciiBytes "eth2", asciiBytes "nfd", asciiBytes "attnets",
   asciiBytes "syncnets", asciiBytes "cgc"]

/-- Source `classify_enr(kv)`. -/
def classify_enr (kv : KV) : String :=
  let has_cl := kvHasKey kv (asciiBytes "eth2") || kvHasKey kv (asciiBytes "attnets") ||
    kvHasKey kv (asciiBytes "syncnets") || kvHasKey kv (asciiBytes "cgc") ||
    kvHasKey kv (asciiBytes "nfd")
  let has_el := kvHasKey kv (asciiBytes "eth") || kvHasKey kv (asciiBytes "snap") ||
    kvHasKey kv (asciiBytes "les")
  if has_cl && has_el then "cl+el (mixed ENR)"
  else if has_cl then "consensus-layer (CL)"
  else if has_el then "execution-layer (EL)"
  else "unknown/transport-only"

/-- The `"signature"` entry of the output:
`_hex0x(signature if isinstance(signature, (bytes, bytearray)) else b"")`. -/
def signatureHex : Node → String
  | .bytes b => hex0x b
  | .list _ => hex0x []

/-- The `"raw_kv"` entry of the output. -/
def rawKvView (kv : KV) : List (List Nat × RawKVVal) :=
  kv.map (fun p => (p.1, match p.2 with
    | .bytes b => RawKVVal.hexStr (hex0x b)
    | n => RawKVVal.node n))

/-- One well-known field of the output: absent key gives `none`, a
present key runs the interpreter (whose exception, if any, aborts
`decode_enr`). -/
def optField {α : Type} (kv : KV) (k : List Nat) (f : Node → Except PyErr α) :
    Except PyErr (Option α) :=
  match kvGet? kv k with
  | none => .ok none
  | some v => (f v).map some

/-- The extras loop of `decode_enr`: every key outside the well-known
set, in map order. -/
def extrasOf (kv : KV) : List (List Nat × ExtraVal) :=
  (kv.filter (fun p => decide (p.1 ∉ wellKnownKeys))).map (fun p =>
    (p.1, match p.2 with
      | .bytes b =>
        ExtraVal.rendered (hex0x b)
          (if utf8Valid b then some b else none)
          (if b.length ≤ 8 then some (pyBytesToInt b) else none)
      | n => ExtraVal.value n))

/-- Everything `decode_enr` does after the flattened map `kv` is built:
the well-known field interpreters run in source order (the first
exception aborts the decode), then extras and the role guess. -/
def semanticOut (seqN : Nat) (sig : Node) (kv : KV) : Except PyErr ENROut := do
  let idV ← optField kv (asciiBytes "id") tryUtf8Node
  let ipV ← optField kv (asciiBytes "ip") decodeIpNode
  let ip6V ← optField kv (asciiBytes "ip6") decodeIpNode
  let udpV ← optField kv (asciiBytes "udp") bytesToIntNode
  let tcpV ← optField kv (asciiBytes "tcp") bytesToIntNode
  let quicV ← optField kv (asciiBytes "quic") bytesToIntNode
  let udp6V ← optField kv (asciiBytes "udp6") bytesToIntNode
  let tcp6V ← optField kv (asciiBytes "tcp6") bytesToIntNode
  let quic6V ← optField kv (asciiBytes "quic6") bytesToIntNode
  let secpV ← optField kv (asciiBytes "secp256k1") hex0xNode
  let eth2V ← optField kv (asciiBytes "eth2") decodeEth2Node
  let nfdV ← optField kv (asciiBytes "nfd") hex0xNode
  let attV ← optField kv (asciiBytes "attnets") hex0xNode
  let syncV ← optField kv (asciiBytes "syncnets") hex0xNode
  let cgcV ← optField kv (asciiBytes "cgc") bytesToIntNode
  .ok {
    seq := seqN
    signature := signatureHex sig
    raw_kv := rawKvView kv
    idView := idV
    ip := ipV
    ip6 := ip6V
    udp := udpV
    tcp := tcpV
    quic := quicV
    udp6 := udp6V
    tcp6 := tcp6V
    quic6 := quic6V
    secp256k1 := secpV
    eth2 := eth2V
    nfd := nfdV
    attnets := attV
    syncnets := syncV
    cgc := cgcV
    extras := extrasOf kv
    role_guess := classify_enr kv }

/-- Source `decode_enr` run on a decoded top-level node: shape checks, the
sequence number, the pair loop, then the semantic view. -/
def decodeEnrFromNode : Node → Except PyErr ENROut
  | .bytes _ => .error (.valueError "Invalid ENR RLP structure")
  | .list rlp =>
    if rlp.length < 2 then .error (.valueError "Invalid ENR RLP structure")
    else do
      let sig := rlp.getD 0 (.bytes [])
      let seqN ← bytesToIntNode (rlp.getD 1 (.bytes []))
      if (rlp.length - 2) % 2 ≠ 0 then .error (.valueError "Invalid ENR key/value pair count")
      else do
        let kv ← buildKVAux (rlp.drop 2) []
        semanticOut seqN sig kv

/-- Source `decode_enr(enr)`: check the `enr:` text marker, base64url-decode
the remainder, RLP-decode, then interpret the record. -/
def decode_enr (enr : String) : Except PyErr ENROut :=
  match enr.data with
  | 'e' :: 'n' :: 'r' :: ':' :: payload => do
    let raw ← b64urlDecodeNopad payload
    let node ← rlp_decode raw
    decodeEnrFromNode node
  | _ => .error (.valueError "Not an ENR string (must start with enr:)")

/-! ## Auxiliary predicates and the specification-side map reading -/

/-- Python `isinstance(v, (bytes, bytearray))`. -/
def Node.isBytes : Node → Bool
  | .bytes _ => true
  | .list _ => false

/-- The key/value tail read two elements at a time (the view the claims
use to speak about "pairs"). -/
def chunkPairs : List Node → List (Node × Node)
  | k :: v :: rest => (k, v) :: chunkPairs rest
  | _ => []

/-- Specification-side reading of the flattened map, written from the
claim's words ("last-write-wins", "empty-list value normalized"): the
value of a key is the normalized value of the LAST pair carrying that
key.  Compared against the map the code actually builds in
`buildKVAux_lookup`. -/
def specLastLookup (pairs : List Node) (k : List Nat) : Option Node :=
  ((chunkPairs pairs).reverse.find? (fun p => decide (p.1 = Node.bytes k))).map
    (fun p => normVal p.2)

/-- Wellformedness of one raw pair, sufficient for `decode_enr` to get
past it: the key is a UTF-8 byte string, and the (normalized) value is
a byte string unless the key is outside the well-known set. -/
def wfPair (kRaw vRaw : Node) : Bool :=
  match kRaw with
  | .bytes kb =>
    utf8Valid kb && ((normVal vRaw).isBytes || !(decide (kb ∈ wellKnownKeys)))
  | .list _ => false

/-- Wellformedness of the whole key/value tail. -/
def wfPairs : List Node → Bool
  | [] => true
  | kRaw :: vRaw :: rest => wfPair kRaw vRaw && wfPairs rest
  | _ => false

/-- Map invariant sufficient for the semantic stage to succeed: every
well-known key holds a byte-string value. -/
def wfKV (kv : KV) : Bool :=
  kv.all (fun p => p.2.isBytes || !(decide (p.1 ∈ wellKnownKeys)))

/-! ## Model validation on concrete inputs

Each example mirrors an observed behaviour of the Python module. -/

example : rlp_decode [0x41] = .ok (.bytes [0x41]) := rfl
example : rlp_decode [0x83, 0x64, 0x6f, 0x67] = .ok (.bytes [0x64, 0x6f, 0x67]) := rfl
example : rlp_decode [0x80] = .ok (.bytes []) := rfl
example : rlp_decode [0xc0] = .ok (.list []) := rfl
example : rlp_decode [] = .error (.valueError "RLP decode out of range") := rfl
example : rlp_decode [0x83, 0x64, 0x6f] = .error (.valueError "Trailing bytes after RLP item") := rfl
example : rlp_decode [0xc1, 0x81, 0x41] = .error (.valueError "RLP list length mismatch (short list)") := rfl
example : rlp_decode [0xb9, 0x00, 0x03, 0x64, 0x6f, 0x67] = .ok (.bytes [0x64, 0x6f, 0x67]) := rfl
example : rlp_decode [0xf9, 0x00, 0x03, 0x41, 0x42, 0x43] =
    .ok (.list [.bytes [0x41], .bytes [0x42], .bytes [0x43]]) := rfl
example : rlp_decode [0x41, 0x41] = .error (.valueError "Trailing bytes after RLP item") := rfl
example : b64urlDecodeNopad "QQ".data = .ok [0x41] := rfl
example : b64urlDecodeNopad "xYMBAgMF!!!!".data = .ok [0xC5, 0x83, 1, 2, 3, 5] := rfl
example : b64urlDecodeNopad "A".data =
    .error (.valueError "Invalid base64-encoded string: wrong number of data characters") := rfl
example : b64urlDecodeNopad "A!A!".data = .error (.valueError "Incorrect padding") := rfl
example : b64urlDecodeNopad "-_".data = .ok [0xfb] := rfl
example : b64urlDecodeNopad "QQ==XXXX".data = .ok [0x41] := rfl
example : utf8Valid [0x76, 0x34] = true := rfl
example : utf8Valid [0x02] = true := rfl
example : utf8Valid [0xff] = false := rfl
example : utf8Valid [0xc3, 0xa9] = true := rfl
example : utf8Valid [0xc0, 0x80] = false := rfl
example : utf8Valid [0xed, 0xa0, 0x80] = false := rfl
example : decode_enr "abc" = .error (.valueError "Not an ENR string (must start with enr:)") := rfl
example : decode_enr "enr:QQ" = .error (.valueError "Invalid ENR RLP structure") := rfl
example : decode_enr "enr:w4CAgA" = .error (.valueError "Invalid ENR key/value pair count") := rfl
example : decode_enr "enr:yICAg3VkcMGA" = .error .typeError := rfl
example : (decode_enr "enr:xYMBAgMF!!!!").toOption.map (fun o => (o.seq, o.signature, o.role_guess)) =
    some (5, "0x010203", "unknown/transport-only") := rfl
example : (decode_enr "enr:yICAgmlkgnY0").toOption.map (fun o => (o.idView, o.extras)) =
    some (some (.utf8Str [0x76, 0x34]), []) := rfl
example : (decode_enr "enr:x4GqBWEBYQI").toOption.map (fun o => (o.seq, o.signature, o.raw_kv)) =
    some (5, "0xaa", [([0x61], .hexStr "0x02")]) := rfl
example : (decode_enr "enr:yYAHg3VkcIIfkA").toOption.map (fun o => o.udp) = some (some 8080) := rfl
example :
    (decode_enr "enr:2ICAhGV0aDKQAAECAwQFBgcICQoLDA0ODw").toOption.map (fun o => (o.eth2, o.role_guess)) =
    some (some (.forkid "0x00010203" "0x04050607" 579005069656919567), "consensus-layer (CL)") := rfl
example : (decode_enr "enr:y4CAhGV0aDKDAQID").toOption.map (fun o => o.eth2) =
    some (some (.mismatch "0x010203")) := rfl
example : (decode_enr "enr:x4CAgnh4wYA").toOption.map (fun o => (o.raw_kv, o.extras)) =
    some ([([0x78, 0x78], .node (.list [.bytes []]))],
          [([0x78, 0x78], .value (.list [.bytes []]))]) := rfl

/-! ## Meta-lemmas about the generic decoder -/

/-- A Python slice whose upper bound stays inside `data` ignores any
appended suffix. -/
theorem pySlice_append (data ext : List Nat) (a b : Nat) (hb : b ≤ data.length) :
    pySlice (data ++ ext) a b = pySlice data a b := by
  unfold pySlice
  rcases le_or_lt b a with hba | hab
  · have h0 : b - a = 0 := by omega
    simp [h0]
  · have ha : a ≤ data.length := by omega
    rw [List.drop_append_of_le_length ha]
    rw [List.take_append_of_le_length (by rw [List.length_drop]; omega)]

/-- A successfully decoded node consumes at least one byte: the final
position is strictly past the start (and the child loop never moves
backwards). -/
theorem rlpPosMono : ∀ f : Nat,
    (∀ data pos v p', rlpDecodeAt f data pos = .ok (v, p') → pos < p') ∧
    (∀ data p stop items pf, rlpDecodeItems f data p stop = .ok (items, pf) → p ≤ pf) := by
  intro f
  induction f with
  | zero =>
    constructor
    · intro data pos v p' h; simp [rlpDecodeAt] at h
    · intro data p stop items pf h; simp [rlpDecodeItems] at h
  | succ f ih =>
    obtain ⟨ihAt, ihItems⟩ := ih
    constructor
    · intro data pos v p' h
      rw [rlpDecodeAt] at h
      split at h
      · simp at h
      · dsimp only at h
        split at h
        · simp at h; omega
        · split at h
          · split at h
            · simp at h; omega
            · simp at h; omega
          · split at h
            · simp at h; omega
            · split at h
              · -- short list
                split at h
                · simp at h
                · split at h
                  · simp at h
                  · simp at h; omega
              · split at h
                · -- long list
                  split at h
                  · simp at h
                  · split at h
                    · simp at h
                    · simp at h; omega
                · simp at h
    · intro data p stop items pf h
      rw [rlpDecodeItems] at h
      split at h
      · split at h
        · simp at h
        · rename_i r item p1 hA
          split at h
          · simp at h
          · rename_i r2 items2 pf2 hI
            simp only [Except.ok.injEq, Prod.mk.injEq] at h
            have h1 := ihAt data p item p1 hA
            have h2 := ihItems data p1 stop items2 pf2 hI
            omega
      · simp only [Except.ok.injEq, Prod.mk.injEq] at h
        omega

/-- Decoding looks only at the bytes before the returned position: a
successful decode whose final position stays inside `data` is unchanged
by appending a suffix to the buffer (and by giving the decoder more
fuel). -/
theorem rlpPrefFuel : ∀ f : Nat,
    (∀ g data ext pos v p', f ≤ g → rlpDecodeAt f data pos = .ok (v, p') →
      p' ≤ data.length → rlpDecodeAt g (data ++ ext) pos = .ok (v, p')) ∧
    (∀ g data ext p stop items pf, f ≤ g → rlpDecodeItems f data p stop = .ok (items, pf) →
      pf ≤ data.length → rlpDecodeItems g (data ++ ext) p stop = .ok (items, pf)) := by
  intro f
  induction f with
  | zero =>
    constructor
    · intro g data ext pos v p' _ h _; simp [rlpDecodeAt] at h
    · intro g data ext p stop items pf _ h _; simp [rlpDecodeItems] at h
  | succ f ih =>
    obtain ⟨ihAt, ihItems⟩ := ih
    constructor
    · intro g data ext pos v p' hfg h hlen
      obtain ⟨g', rfl⟩ : ∃ g'', g = g'' + 1 := ⟨g - 1, by omega⟩
      have hfg' : f ≤ g' := by omega
      rw [rlpDecodeAt] at h
      rw [rlpDecodeAt]
      split at h
      · simp at h
      · rename_i hpos
        rw [if_neg (show ¬ (data ++ ext).length ≤ pos by rw [List.length_append]; omega)]
        dsimp only at h ⊢
        rw [List.getD_append _ _ _ _ (by omega)]
        split at h
        · rename_i hb
          rw [if_pos hb]; exact h
        · rename_i hb1
          rw [if_neg hb1]
          split at h
          · rename_i hb2
            rw [if_pos hb2]
            split at h
            · rename_i hz
              rw [if_pos hz]; exact h
            · rename_i hz
              rw [if_neg hz]
              simp only [Except.ok.injEq, Prod.mk.injEq] at h
              obtain ⟨hv, hp⟩ := h
              rw [pySlice_append data ext (pos + 1)
                (pos + 1 + (data.getD pos 0 - 128)) (by omega)]
              rw [hv, hp]
          · rename_i hb2
            rw [if_neg hb2]
            split at h
            · rename_i hb3
              rw [if_pos hb3]
              simp only [Except.ok.injEq, Prod.mk.injEq] at h
              obtain ⟨hv, hp⟩ := h
              have hinner := pySlice_append data ext (pos + 1)
                (pos + 1 + (data.getD pos 0 - 183)) (by omega)
              rw [hinner]
              rw [pySlice_append data ext (pos + 1 + (data.getD pos 0 - 183))
                (pos + 1 + (data.getD pos 0 - 183) +
                  beNat (pySlice data (pos + 1) (pos + 1 + (data.getD pos 0 - 183))))
                (by omega)]
              rw [hv, hp]
            · rename_i hb3
              rw [if_neg hb3]
              split at h
              · rename_i hb4
                rw [if_pos hb4]
                split at h
                · simp at h
                · rename_i r items2 p2 hI
                  split at h
                  · simp at h
                  · rename_i hne
                    simp only [Except.ok.injEq, Prod.mk.injEq] at h
                    obtain ⟨hv, hp⟩ := h
                    have hp2 : p2 = pos + 1 + (data.getD pos 0 - 192) := by omega
                    have hrec := ihItems g' data ext (pos + 1)
                      (pos + 1 + (data.getD pos 0 - 192)) items2 p2 hfg' hI (by omega)
                    rw [hrec]
                    dsimp only
                    rw [if_neg hne]
                    rw [hv, hp]
              · rename_i hb4
                rw [if_neg hb4]
                split at h
                · rename_i hb5
                  rw [if_pos hb5]
                  split at h
                  · simp at h
                  · rename_i r items2 p2 hI
                    split at h
                    · simp at h
                    · rename_i hne
                      simp only [Except.ok.injEq, Prod.mk.injEq] at h
                      obtain ⟨hv, hp⟩ := h
                      have hinner := pySlice_append data ext (pos + 1)
                        (pos + 1 + (data.getD pos 0 - 247)) (by omega)
                      rw [hinner]
                      have hrec := ihItems g' data ext
                        (pos + 1 + (data.getD pos 0 - 247))
                        (pos + 1 + (data.getD pos 0 - 247) +
                          beNat (pySlice data (pos + 1) (pos + 1 + (data.getD pos 0 - 247))))
                        items2 p2 hfg' hI (by omega)
                      rw [hrec]
                      dsimp only
                      rw [if_neg hne]
                      rw [hv, hp]
                · simp at h
    · intro g data ext p stop items pf hfg h hlen
      obtain ⟨g', rfl⟩ : ∃ g'', g = g'' + 1 := ⟨g - 1, by omega⟩
      have hfg' : f ≤ g' := by omega
      rw [rlpDecodeItems] at h
      rw [rlpDecodeItems]
      split at h
      · rename_i hlt
        rw [if_pos hlt]
        split at h
        · simp at h
        · rename_i r item p1 hA
          split at h
          · simp at h
          · rename_i r2 items2 pf2 hI
            simp only [Except.ok.injEq, Prod.mk.injEq] at h
            obtain ⟨hitems, hpf⟩ := h
            have hmono := (rlpPosMono f).2 data p1 stop items2 pf2 hI
            have hrecA := ihAt g' data ext p item p1 hfg' hA (by omega)
            have hrecI := ihItems g' data ext p1 stop items2 pf2 hfg' hI (by omega)
            rw [hrecA]
            dsimp only
            rw [hrecI]
            dsimp only
            rw [hitems, hpf]
      · rename_i hlt
        rw [if_neg hlt]
        exact h

/-- The fuel bound used by `rlp_decode` is sufficient: with fuel at
least `2 * (remaining bytes) + 1` the decoder never reports fuel
exhaustion, so the embedding is faithful to the unbounded Python
recursion. -/
theorem rlpNoFuelOut : ∀ f : Nat,
    (∀ data pos, 2 * (data.length - pos) + 1 ≤ f → rlpDecodeAt f data pos ≠ .error .fuelOut) ∧
    (∀ data p stop, 2 * (data.length - p) + 2 ≤ f →
      rlpDecodeItems f data p stop ≠ .error .fuelOut) := by
  intro f
  induction f with
  | zero =>
    constructor
    · intro data pos hf; omega
    · intro data p stop hf; omega
  | succ f ih =>
    obtain ⟨ihAt, ihItems⟩ := ih
    constructor
    · intro data pos hf
      rw [rlpDecodeAt]
      split
      · simp
      · rename_i hpos
        dsimp only
        split
        · simp
        · split
          · split <;> simp
          · split
            · simp
            · split
              · -- short list
                split
                · rename_i e hI
                  intro hcontra
                  have he : e = PyErr.fuelOut := by
                    simpa using hcontra
                  subst he
                  exact ihItems data (pos + 1) (pos + 1 + (data.getD pos 0 - 192))
                    (by omega) hI
                · split <;> simp
              · split
                · -- long list
                  split
                  · rename_i e hI
                    intro hcontra
                    have he : e = PyErr.fuelOut := by
                      simpa using hcontra
                    subst he
                    exact ihItems data (pos + 1 + (data.getD pos 0 - 247))
                      (pos + 1 + (data.getD pos 0 - 247) +
                        beNat (pySlice data (pos + 1) (pos + 1 + (data.getD pos 0 - 247))))
                      (by omega) hI
                  · split <;> simp
                · simp
    · intro data p stop hf
      rw [rlpDecodeItems]
      split
      · rename_i hlt
        split
        · rename_i e hA
          intro hcontra
          have he : e = PyErr.fuelOut := by simpa using hcontra
          subst he
          exact ihAt data p (by omega) hA
        · rename_i r item p1 hA
          split
          · rename_i e hI
            intro hcontra
            have he : e = PyErr.fuelOut := by simpa using hcontra
            subst he
            rcases Nat.lt_or_ge p data.length with hp | hp
            · have hmono := (rlpPosMono f).1 data p item p1 hA
              exact ihItems data p1 stop (by omega) hI
            · obtain ⟨f', rfl⟩ : ∃ f'', f = f'' + 1 := ⟨f - 1, by omega⟩
              rw [rlpDecodeAt] at hA
              rw [if_pos hp] at hA
              simp at hA
          · simp
      · simp

/-- Theorem: `rlp_decode` never reports fuel exhaustion: its result always comes
from one of the source's own code paths. -/
theorem rlp_decode_noFuelOut (data : List Nat) : rlp_decode data ≠ .error .fuelOut := by
  unfold rlp_decode
  cases hA : rlpDecodeAt (2 * data.length + 1) data 0 with
  | error e =>
    intro hcontra
    have he : e = .fuelOut := by simpa using hcontra
    subst he
    exact (rlpNoFuelOut _).1 data 0 (by omega) hA
  | ok r =>
    obtain ⟨obj, p⟩ := r
    dsimp only
    split <;> simp

/-- A successful top-level decode means the inner decoder consumed the
buffer exactly. -/
theorem rlp_decode_ok_inner (data : List Nat) (v : Node) (h : rlp_decode data = .ok v) :
    rlpDecodeAt (2 * data.length + 1) data 0 = .ok (v, data.length) := by
  unfold rlp_decode at h
  cases hA : rlpDecodeAt (2 * data.length + 1) data 0 with
  | error e => rw [hA] at h; simp at h
  | ok r =>
    obtain ⟨obj, p⟩ := r
    rw [hA] at h
    dsimp only at h
    split at h
    · simp at h
    · rename_i hp
      simp only [Except.ok.injEq] at h
      have hp' : p = data.length := by omega
      rw [h, hp']

/-- Appending any byte to a buffer that decodes successfully makes the
top-level decode fail on leftover trailing bytes. -/
theorem rlp_decode_append_error (data : List Nat) (v : Node) (b : Nat)
    (h : rlp_decode data = .ok v) :
    rlp_decode (data ++ [b]) = .error (.valueError "Trailing bytes after RLP item") := by
  have hA := rlp_decode_ok_inner data v h
  have hpref := (rlpPrefFuel (2 * data.length + 1)).1 (2 * (data ++ [b]).length + 1)
    data [b] 0 v data.length (by simp only [List.length_append]; omega) hA (le_refl _)
  unfold rlp_decode
  rw [hpref]
  dsimp only
  rw [if_pos (show data.length ≠ (data ++ [b]).length by
    simp [List.length_append])]

/-- C1: the generic decoder (`rlp_decode`) fails with a
`MalformedEncoding` error (a `ValueError`) and yields no node whenever
the buffer is empty where a node is expected (`_rlp_decode_at` at or
past the end of the buffer, in particular on the empty buffer), when a
declared length extends past the end of the buffer (witnessed by
`0x83 0x64 0x6f`, a short string declaring 3 payload bytes with only 2
available), when the children of a list span do not consume exactly the
declared span (witnessed by `0xc1 0x81 0x41`, whose child overruns the
1-byte span; a gap cannot terminate the child loop, which runs until
the span end is reached or passed), and whenever unconsumed bytes
remain after the top-level node: every valid input with one extra
trailing byte appended fails. -/
theorem C1_rlp_decode_rejects_malformed :
    (∀ f data pos, data.length ≤ pos →
      rlpDecodeAt (f + 1) data pos = .error (.valueError "RLP decode out of range"))
    ∧ rlp_decode [] = .error (.valueError "RLP decode out of range")
    ∧ (∀ data v b, rlp_decode data = .ok v →
      rlp_decode (data ++ [b]) = .error (.valueError "Trailing bytes after RLP item"))
    ∧ rlp_decode [0x83, 0x64, 0x6f] = .error (.valueError "Trailing bytes after RLP item")
    ∧ rlp_decode [0xc1, 0x81, 0x41] =
      .error (.valueError "RLP list length mismatch (short list)") := by
  refine ⟨?_, rfl, ?_, rfl, rfl⟩
  · intro f data pos h
    rw [rlpDecodeAt]
    rw [if_pos h]
  · intro data v b h
    exact rlp_decode_append_error data v b h

/-- Witness for C1 at concrete inputs: position 1 is past the end of
the one-byte buffer `0x41`, and appending a byte to that valid buffer
fails on trailing bytes. -/
theorem C1_rlp_decode_rejects_malformed_witness :
    ([0x41] : List Nat).length ≤ 1
    ∧ rlpDecodeAt (0 + 1) [0x41] 1 = .error (.valueError "RLP decode out of range")
    ∧ rlp_decode [0x41] = .ok (.bytes [0x41])
    ∧ rlp_decode ([0x41] ++ [0x00]) =
      .error (.valueError "Trailing bytes after RLP item") := by
  refine ⟨by decide, ?_, rfl, ?_⟩
  · exact C1_rlp_decode_rejects_malformed.1 0 [0x41] 1 (by decide)
  · exact C1_rlp_decode_rejects_malformed.2.2.1 [0x41] (.bytes [0x41]) 0x00 rfl

/-- C4: dispatch on the first byte of each span follows the fixed
byte-value ranges: `0x41` alone is the one-byte string `0x41`;
`0x83 'd' 'o' 'g'` is the string `"dog"`; `0x80` is the empty string;
`0xc0` is the empty list; and the empty string and the empty list are
distinguishable values. -/
theorem C4_rlp_decode_dispatch_examples :
    rlp_decode [0x41] = .ok (.bytes [0x41])
    ∧ rlp_decode [0x83, 0x64, 0x6f, 0x67] = .ok (.bytes [0x64, 0x6f, 0x67])
    ∧ rlp_decode [0x80] = .ok (.bytes [])
    ∧ rlp_decode [0xc0] = .ok (.list [])
    ∧ Node.bytes [] ≠ Node.list [] := by
  refine ⟨rfl, rfl, rfl, rfl, ?_⟩
  intro h
  cases h

/-- C8: multi-byte length fields are read as big-endian unsigned
integers of exactly the stated width and non-minimal encodings are not
rejected: the long-string form `0xb9 0x00 0x03 'd' 'o' 'g'`, whose
2-byte length field carries a leading zero, decodes to the same value
as the minimal short form `0x83 'd' 'o' 'g'`; likewise for a long list
with a leading-zero length field. -/
theorem C8_rlp_decode_nonminimal_length :
    rlp_decode [0xb9, 0x00, 0x03, 0x64, 0x6f, 0x67] = .ok (.bytes [0x64, 0x6f, 0x67])
    ∧ rlp_decode [0x83, 0x64, 0x6f, 0x67] = .ok (.bytes [0x64, 0x6f, 0x67])
    ∧ rlp_decode [0xf9, 0x00, 0x03, 0x41, 0x42, 0x43] =
      .ok (.list [.bytes [0x41], .bytes [0x42], .bytes [0x43]])
    ∧ rlp_decode [0xf8, 0x03, 0x41, 0x42, 0x43] =
      .ok (.list [.bytes [0x41], .bytes [0x42], .bytes [0x43]])
    ∧ beNat [0x00, 0x03] = 3 := ⟨rfl, rfl, rfl, rfl, rfl⟩

/-! ## Lemmas about the flattened map construction -/

/-- Unfolding `kvGet?` over a cons cell. -/
theorem kvGet?_cons (a : List Nat × Node) (rest : KV) (k : List Nat) :
    kvGet? (a :: rest) k = if a.1 = k then some a.2 else kvGet? rest k := by
  unfold kvGet?
  by_cases h : a.1 = k
  · rw [List.find?_cons_of_pos _ (by simp [h])]
    simp [h]
  · rw [List.find?_cons_of_neg _ (by simp [h])]
    simp [h]

/-- Overwriting key `k` in place does not change the lookup of other
keys. -/
theorem kvGet?_overwrite_ne (kv : KV) (k k' : List Nat) (v : Node) (hne : k' ≠ k) :
    kvGet? (kv.map (fun p => if p.1 = k then (k, v) else p)) k' = kvGet? kv k' := by
  induction kv with
  | nil => rfl
  | cons a rest ih =>
    obtain ⟨ak, av⟩ := a
    simp only [List.map_cons]
    rw [kvGet?_cons, kvGet?_cons]
    by_cases hak : ak = k
    · subst hak
      simp only [if_pos rfl]
      rw [if_neg (by simpa using (fun h => hne h.symm)), if_neg (by intro h; exact hne h.symm)]
      exact ih
    · simp only [if_neg hak]
      by_cases hk' : ak = k'
      · rw [if_pos hk', if_pos hk']
      · rw [if_neg hk', if_neg hk']
        exact ih

/-- Overwriting key `k` in place makes its lookup return the new value,
provided the key was present. -/
theorem kvGet?_overwrite_eq (kv : KV) (k : List Nat) (v : Node)
    (hhas : kvHasKey kv k = true) :
    kvGet? (kv.map (fun p => if p.1 = k then (k, v) else p)) k = some v := by
  induction kv with
  | nil => simp [kvHasKey] at hhas
  | cons a rest ih =>
    obtain ⟨ak, av⟩ := a
    simp only [List.map_cons]
    by_cases hak : ak = k
    · subst hak
      simp only [if_pos rfl]
      rw [kvGet?_cons]
      simp
    · simp only [if_neg hak]
      rw [kvGet?_cons]
      rw [if_neg hak]
      apply ih
      simpa [kvHasKey, hak] using hhas

/-- A key with no entry gives no lookup result. -/
theorem kvGet?_eq_none_of_not_has (kv : KV) (k : List Nat) (hhas : kvHasKey kv k = false) :
    kvGet? kv k = none := by
  unfold kvGet?
  have h : List.find? (fun p => decide (p.1 = k)) kv = none := by
    rw [List.find?_eq_none]
    intro p hp
    simp only [kvHasKey, List.any_eq_false] at hhas
    simpa using hhas p hp
  rw [h]
  rfl

/-- Python dictionary assignment `kv[k] = v` as seen through lookup:
the assigned key now maps to `v`, all other keys are unchanged. -/
theorem kvGet?_kvInsert (kv : KV) (k : List Nat) (v : Node) (k' : List Nat) :
    kvGet? (kvInsert kv k v) k' = if k' = k then some v else kvGet? kv k' := by
  unfold kvInsert
  split
  · rename_i hhas
    by_cases hk : k' = k
    · subst hk
      rw [if_pos rfl]
      exact kvGet?_overwrite_eq kv k' v hhas
    · rw [if_neg hk]
      exact kvGet?_overwrite_ne kv k k' v hk
  · rename_i hhas
    unfold kvGet?
    rw [List.find?_append]
    by_cases hk : k' = k
    · subst hk
      have hnone : List.find? (fun p => decide (p.1 = k')) kv = none := by
        have := kvGet?_eq_none_of_not_has kv k' (by simpa using hhas)
        unfold kvGet? at this
        cases hf : List.find? (fun p => decide (p.1 = k')) kv
        · rfl
        · rw [hf] at this; simp at this
      rw [hnone]
      simp [List.find?]
    · rw [if_neg hk]
      have hdk : decide (k = k') = false := decide_eq_false (fun h => hk h.symm)
      have hsing : List.find? (fun p => decide (p.1 = k')) [(k, v)] = none := by
        simp only [List.find?]
        rw [hdk]
      rw [hsing]
      simp

/-- Unfolding `specLastLookup` over one leading pair: the later pairs
take precedence, the leading pair is the fallback. -/
theorem specLastLookup_cons (kRaw vRaw : Node) (rest : List Node) (k : List Nat) :
    specLastLookup (kRaw :: vRaw :: rest) k =
      Option.or (specLastLookup rest k)
        (if kRaw = Node.bytes k then some (normVal vRaw) else none) := by
  unfold specLastLookup
  have hc : chunkPairs (kRaw :: vRaw :: rest) = (kRaw, vRaw) :: chunkPairs rest := rfl
  rw [hc, List.reverse_cons, List.find?_append]
  by_cases hk : kRaw = Node.bytes k
  · cases hf : List.find? (fun p => decide (p.1 = Node.bytes k)) (chunkPairs rest).reverse with
    | none => simp [List.find?, hk, Option.or]
    | some q => simp [List.find?, hk, Option.or]
  · cases hf : List.find? (fun p => decide (p.1 = Node.bytes k)) (chunkPairs rest).reverse with
    | none => simp [List.find?, hk, Option.or]
    | some q => simp [List.find?, hk, Option.or]

/-- What the pair loop of `decode_enr` builds, seen through lookup: a
key maps to the normalized value of its LAST occurrence among the
pairs, falling back to the accumulator it started from.  This is the
last-write-wins contract, proved against the specification-side
reading `specLastLookup`. -/
theorem buildKVAux_lookup : ∀ (pairs : List Node) (kv0 kv : KV),
    buildKVAux pairs kv0 = .ok kv →
    ∀ k, kvGet? kv k = Option.or (specLastLookup pairs k) (kvGet? kv0 k)
  | [], kv0, kv, h, k => by
    simp only [buildKVAux, Except.ok.injEq] at h
    subst h
    simp [specLastLookup, chunkPairs, List.find?, Option.or]
  | kRaw :: vRaw :: rest, kv0, kv, h, k => by
    rw [specLastLookup_cons]
    cases kRaw with
    | list l => simp [buildKVAux] at h
    | bytes kb =>
      simp only [buildKVAux] at h
      split at h
      · have ih := buildKVAux_lookup rest (kvInsert kv0 kb (normVal vRaw)) kv h k
        rw [ih, kvGet?_kvInsert]
        cases hsl : specLastLookup rest k with
        | some q => simp [Option.or]
        | none =>
          by_cases hkk : k = kb
          · subst hkk
            simp [Option.or]
          · rw [if_neg hkk,
              if_neg (show ¬ Node.bytes kb = Node.bytes k by
                intro hc
                apply hkk
                injection hc with h1
                exact h1.symm)]
            simp [Option.or]
      · simp at h
  | [_], kv0, kv, h, k => by simp [buildKVAux] at h

/-- Inserting a value that respects the map invariant preserves it. -/
theorem wfKV_insert (kv : KV) (k : List Nat) (v : Node) (hwf : wfKV kv = true)
    (hv : (v.isBytes || !(decide (k ∈ wellKnownKeys))) = true) :
    wfKV (kvInsert kv k v) = true := by
  unfold kvInsert
  split
  · unfold wfKV at *
    rw [List.all_eq_true] at *
    intro p hp
    rw [List.mem_map] at hp
    obtain ⟨q, hq, hqe⟩ := hp
    by_cases hqk : q.1 = k
    · rw [if_pos hqk] at hqe
      rw [← hqe]
      simpa using hv
    · rw [if_neg hqk] at hqe
      rw [← hqe]
      exact hwf q hq
  · unfold wfKV at *
    rw [List.all_append]
    simp only [hwf, Bool.true_and, List.all_cons, List.all_nil, Bool.and_true]
    simpa using hv

/-- The pair loop keeps the map invariant when every pair is
wellformed. -/
theorem buildKVAux_wf : ∀ (pairs : List Node) (kv0 kv : KV), wfPairs pairs = true →
    wfKV kv0 = true → buildKVAux pairs kv0 = .ok kv → wfKV kv = true
  | [], kv0, kv, _, hwf0, h => by
    simp only [buildKVAux, Except.ok.injEq] at h
    subst h
    exact hwf0
  | kRaw :: vRaw :: rest, kv0, kv, hwfp, hwf0, h => by
    cases kRaw with
    | list l => simp [wfPairs, wfPair] at hwfp
    | bytes kb =>
      simp only [wfPairs, wfPair, Bool.and_eq_true] at hwfp
      obtain ⟨⟨hutf, hval⟩, hrest⟩ := hwfp
      simp only [buildKVAux] at h
      rw [if_pos hutf] at h
      exact buildKVAux_wf rest (kvInsert kv0 kb (normVal vRaw)) kv hrest
        (wfKV_insert kv0 kb (normVal vRaw) hwf0 hval) h
  | [_], kv0, kv, hwfp, _, _ => by simp [wfPairs] at hwfp

/-- The pair loop succeeds on wellformed pairs. -/
theorem buildKVAux_ok : ∀ (pairs : List Node) (kv0 : KV), wfPairs pairs = true →
    ∃ kv, buildKVAux pairs kv0 = .ok kv
  | [], kv0, _ => ⟨kv0, rfl⟩
  | kRaw :: vRaw :: rest, kv0, hwfp => by
    cases kRaw with
    | list l => simp [wfPairs, wfPair] at hwfp
    | bytes kb =>
      simp only [wfPairs, wfPair, Bool.and_eq_true] at hwfp
      obtain ⟨⟨hutf, _⟩, hrest⟩ := hwfp
      obtain ⟨kv, hkv⟩ := buildKVAux_ok rest (kvInsert kv0 kb (normVal vRaw)) hrest
      refine ⟨kv, ?_⟩
      simp only [buildKVAux]
      rw [if_pos hutf]
      exact hkv
  | [_], kv0, hwfp => by simp [wfPairs] at hwfp

/-! ## The semantic stage -/

/-- Bind on a successful `Except` computation. -/
theorem except_ok_bind {e a b : Type} (x : a) (f : a → Except e b) :
    (Except.ok x : Except e a) >>= f = f x := rfl

/-- Under the map invariant, a present well-known key holds bytes. -/
theorem wfKV_get_bytes (kv : KV) (k : List Nat) (hwf : wfKV kv = true)
    (hk : k ∈ wellKnownKeys) (v : Node) (hv : kvGet? kv k = some v) :
    ∃ b, v = .bytes b := by
  unfold kvGet? at hv
  cases hf : List.find? (fun p => decide (p.1 = k)) kv with
  | none => rw [hf] at hv; simp at hv
  | some q =>
    rw [hf] at hv
    simp only [Option.map_some'] at hv
    have hmem := List.mem_of_find?_eq_some hf
    have hq1 : q.1 = k := by
      have := List.find?_some hf
      simpa using this
    unfold wfKV at hwf
    rw [List.all_eq_true] at hwf
    have hq := hwf q hmem
    rw [hq1] at hq
    simp only [Bool.or_eq_true, Bool.not_eq_true', decide_eq_false_iff_not] at hq
    cases hq with
    | inl hb =>
      cases hq2 : q.2 with
      | bytes b =>
        refine ⟨b, ?_⟩
        injection hv with h2
        rw [← h2, hq2]
      | list l => rw [hq2] at hb; simp [Node.isBytes] at hb
    | inr hnk => exact absurd hk hnk

/-- Characterization of one well-known field: it succeeds whenever the
interpreter succeeds on the stored value, is `none` for an absent key
and carries the interpreter result for a present one. -/
theorem optField_ok {α : Type} (kv : KV) (k : List Nat) (f : Node → Except PyErr α)
    (hf : ∀ v, kvGet? kv k = some v → ∃ r, f v = .ok r) :
    ∃ o, optField kv k f = .ok o ∧ (kvGet? kv k = none → o = none)
      ∧ (∀ v r, kvGet? kv k = some v → f v = .ok r → o = some r) := by
  unfold optField
  cases hg : kvGet? kv k with
  | none =>
    refine ⟨none, rfl, fun _ => rfl, ?_⟩
    intro v r hv
    simp at hv
  | some v0 =>
    obtain ⟨r0, hr0⟩ := hf v0 hg
    refine ⟨some r0, ?_, ?_, ?_⟩
    · dsimp only
      rw [hr0]
      rfl
    · intro hn
      simp at hn
    · intro v r hv hr
      injection hv with hv'
      subst hv'
      rw [hr0] at hr
      injection hr with hr'
      rw [hr']

/-- The semantic stage of `decode_enr` succeeds on any map whose
well-known keys hold byte values, and its output fields are exactly
the interpreters applied to the looked-up values (the fields the
claims need are spelled out). -/
theorem semanticOut_ok (s : Nat) (sig : Node) (kv : KV) (hwf : wfKV kv = true) :
    ∃ out, semanticOut s sig kv = .ok out
      ∧ out.seq = s
      ∧ out.signature = signatureHex sig
      ∧ out.raw_kv = rawKvView kv
      ∧ out.extras = extrasOf kv
      ∧ out.role_guess = classify_enr kv
      ∧ (∀ b, kvGet? kv (asciiBytes "id") = some (.bytes b) → out.idView = some (tryUtf8 b))
      ∧ (∀ b, kvGet? kv (asciiBytes "udp") = some (.bytes b) → out.udp = some (pyBytesToInt b))
      ∧ (∀ b, kvGet? kv (asciiBytes "tcp") = some (.bytes b) → out.tcp = some (pyBytesToInt b))
      ∧ (∀ b, kvGet? kv (asciiBytes "quic") = some (.bytes b) → out.quic = some (pyBytesToInt b))
      ∧ (∀ b, kvGet? kv (asciiBytes "udp6") = some (.bytes b) → out.udp6 = some (pyBytesToInt b))
      ∧ (∀ b, kvGet? kv (asciiBytes "tcp6") = some (.bytes b) → out.tcp6 = some (pyBytesToInt b))
      ∧ (∀ b, kvGet? kv (asciiBytes "quic6") = some (.bytes b) → out.quic6 = some (pyBytesToInt b))
      ∧ (∀ b, kvGet? kv (asciiBytes "cgc") = some (.bytes b) → out.cgc = some (pyBytesToInt b))
      ∧ (∀ b, kvGet? kv (asciiBytes "eth2") = some (.bytes b) →
          out.eth2 = some (decodeEth2Forkid b)) := by
  have hfgen : ∀ (k : List Nat), k ∈ wellKnownKeys → ∀ {α : Type}
      (f : Node → Except PyErr α), (∀ b, ∃ r, f (.bytes b) = .ok r) →
      ∀ v, kvGet? kv k = some v → ∃ r, f v = .ok r := by
    intro k hk α f hfb v hv
    obtain ⟨b, rfl⟩ := wfKV_get_bytes kv k hwf hk v hv
    exact hfb b
  obtain ⟨o1, h1ok, h1n, h1s⟩ := optField_ok kv (asciiBytes "id") tryUtf8Node
    (hfgen _ (by decide) _ (fun b => ⟨_, rfl⟩))
  obtain ⟨o2, h2ok, h2n, h2s⟩ := optField_ok kv (asciiBytes "ip") decodeIpNode
    (hfgen _ (by decide) _ (fun b => ⟨_, rfl⟩))
  obtain ⟨o3, h3ok, h3n, h3s⟩ := optField_ok kv (asciiBytes "ip6") decodeIpNode
    (hfgen _ (by decide) _ (fun b => ⟨_, rfl⟩))
  obtain ⟨o4, h4ok, h4n, h4s⟩ := optField_ok kv (asciiBytes "udp") bytesToIntNode
    (hfgen _ (by decide) _ (fun b => ⟨_, rfl⟩))
  obtain ⟨o5, h5ok, h5n, h5s⟩ := optField_ok kv (asciiBytes "tcp") bytesToIntNode
    (hfgen _ (by decide) _ (fun b => ⟨_, rfl⟩))
  obtain ⟨o6, h6ok, h6n, h6s⟩ := optField_ok kv (asciiBytes "quic") bytesToIntNode
    (hfgen _ (by decide) _ (fun b => ⟨_, rfl⟩))
  obtain ⟨o7, h7ok, h7n, h7s⟩ := optField_ok kv (asciiBytes "udp6") bytesToIntNode
    (hfgen _ (by decide) _ (fun b => ⟨_, rfl⟩))
  obtain ⟨o8, h8ok, h8n, h8s⟩ := optField_ok kv (asciiBytes "tcp6") bytesToIntNode
    (hfgen _ (by decide) _ (fun b => ⟨_, rfl⟩))
  obtain ⟨o9, h9ok, h9n, h9s⟩ := optField_ok kv (asciiBytes "quic6") bytesToIntNode
    (hfgen _ (by decide) _ (fun b => ⟨_, rfl⟩))
  obtain ⟨o10, h10ok, h10n, h10s⟩ := optField_ok kv (asciiBytes "secp256k1") hex0xNode
    (hfgen _ (by decide) _ (fun b => ⟨_, rfl⟩))
  obtain ⟨o11, h11ok, h11n, h11s⟩ := optField_ok kv (asciiBytes "eth2") decodeEth2Node
    (hfgen _ (by decide) _ (fun b => ⟨_, rfl⟩))
  obtain ⟨o12, h12ok, h12n, h12s⟩ := optField_ok kv (asciiBytes "nfd") hex0xNode
    (hfgen _ (by decide) _ (fun b => ⟨_, rfl⟩))
  obtain ⟨o13, h13ok, h13n, h13s⟩ := optField_ok kv (asciiBytes "attnets") hex0xNode
    (hfgen _ (by decide) _ (fun b => ⟨_, rfl⟩))
  obtain ⟨o14, h14ok, h14n, h14s⟩ := optField_ok kv (asciiBytes "syncnets") hex0xNode
    (hfgen _ (by decide) _ (fun b => ⟨_, rfl⟩))
  obtain ⟨o15, h15ok, h15n, h15s⟩ := optField_ok kv (asciiBytes "cgc") bytesToIntNode
    (hfgen _ (by decide) _ (fun b => ⟨_, rfl⟩))
  have hsem : semanticOut s sig kv = .ok
      { seq := s, signature := signatureHex sig, raw_kv := rawKvView kv,
        idView := o1, ip := o2, ip6 := o3, udp := o4, tcp := o5, quic := o6,
        udp6 := o7, tcp6 := o8, quic6 := o9, secp256k1 := o10, eth2 := o11,
        nfd := o12, attnets := o13, syncnets := o14, cgc := o15,
        extras := extrasOf kv, role_guess := classify_enr kv } := by
    unfold semanticOut
    simp only [h1ok, h2ok, h3ok, h4ok, h5ok, h6ok, h7ok, h8ok, h9ok, h10ok,
      h11ok, h12ok, h13ok, h14ok, h15ok, except_ok_bind]
  refine ⟨_, hsem, rfl, rfl, rfl, rfl, rfl, ?_, ?_, ?_, ?_, ?_, ?_, ?_, ?_, ?_⟩
  · intro b hb
    exact h1s _ _ hb rfl
  · intro b hb
    exact h4s _ _ hb rfl
  · intro b hb
    exact h5s _ _ hb rfl
  · intro b hb
    exact h6s _ _ hb rfl
  · intro b hb
    exact h7s _ _ hb rfl
  · intro b hb
    exact h8s _ _ hb rfl
  · intro b hb
    exact h9s _ _ hb rfl
  · intro b hb
    exact h15s _ _ hb rfl
  · intro b hb
    exact h11s _ _ hb rfl

/-- Bind on a failed `Except` computation. -/
theorem except_error_bind {e a b : Type} (err : e) (f : a → Except e b) :
    (Except.error err : Except e a) >>= f = .error err := rfl

/-- Whatever the field interpreters did, a successful semantic stage
copies the sequence number, signature rendering, raw map view, extras
and role guess into the output unchanged. -/
theorem semanticOut_inv (s : Nat) (sig : Node) (kv : KV) (out : ENROut)
    (h : semanticOut s sig kv = .ok out) :
    out.seq = s ∧ out.signature = signatureHex sig ∧ out.raw_kv = rawKvView kv
      ∧ out.extras = extrasOf kv ∧ out.role_guess = classify_enr kv := by
  unfold semanticOut at h
  cases ho1 : optField kv (asciiBytes "id") tryUtf8Node with
  | error e => rw [ho1, except_error_bind] at h; simp at h
  | ok o1 =>
  rw [ho1, except_ok_bind] at h
  cases ho2 : optField kv (asciiBytes "ip") decodeIpNode with
  | error e => rw [ho2, except_error_bind] at h; simp at h
  | ok o2 =>
  rw [ho2, except_ok_bind] at h
  cases ho3 : optField kv (asciiBytes "ip6") decodeIpNode with
  | error e => rw [ho3, except_error_bind] at h; simp at h
  | ok o3 =>
  rw [ho3, except_ok_bind] at h
  cases ho4 : optField kv (asciiBytes "udp") bytesToIntNode with
  | error e => rw [ho4, except_error_bind] at h; simp at h
  | ok o4 =>
  rw [ho4, except_ok_bind] at h
  cases ho5 : optField kv (asciiBytes "tcp") bytesToIntNode with
  | error e => rw [ho5, except_error_bind] at h; simp at h
  | ok o5 =>
  rw [ho5, except_ok_bind] at h
  cases ho6 : optField kv (asciiBytes "quic") bytesToIntNode with
  | error e => rw [ho6, except_error_bind] at h; simp at h
  | ok o6 =>
  rw [ho6, except_ok_bind] at h
  cases ho7 : optField kv (asciiBytes "udp6") bytesToIntNode with
  | error e => rw [ho7, except_error_bind] at h; simp at h
  | ok o7 =>
  rw [ho7, except_ok_bind] at h
  cases ho8 : optField kv (asciiBytes "tcp6") bytesToIntNode with
  | error e => rw [ho8, except_error_bind] at h; simp at h
  | ok o8 =>
  rw [ho8, except_ok_bind] at h
  cases ho9 : optField kv (asciiBytes "quic6") bytesToIntNode with
  | error e => rw [ho9, except_error_bind] at h; simp at h
  | ok o9 =>
  rw [ho9, except_ok_bind] at h
  cases ho10 : optField kv (asciiBytes "secp256k1") hex0xNode with
  | error e => rw [ho10, except_error_bind] at h; simp at h
  | ok o10 =>
  rw [ho10, except_ok_bind] at h
  cases ho11 : optField kv (asciiBytes "eth2") decodeEth2Node with
  | error e => rw [ho11, except_error_bind] at h; simp at h
  | ok o11 =>
  rw [ho11, except_ok_bind] at h
  cases ho12 : optField kv (asciiBytes "nfd") hex0xNode with
  | error e => rw [ho12, except_error_bind] at h; simp at h
  | ok o12 =>
  rw [ho12, except_ok_bind] at h
  cases ho13 : optField kv (asciiBytes "attnets") hex0xNode with
  | error e => rw [ho13, except_error_bind] at h; simp at h
  | ok o13 =>
  rw [ho13, except_ok_bind] at h
  cases ho14 : optField kv (asciiBytes "syncnets") hex0xNode with
  | error e => rw [ho14, except_error_bind] at h; simp at h
  | ok o14 =>
  rw [ho14, except_ok_bind] at h
  cases ho15 : optField kv (asciiBytes "cgc") bytesToIntNode with
  | error e => rw [ho15, except_error_bind] at h; simp at h
  | ok o15 =>
  rw [ho15, except_ok_bind] at h
  injection h with h'
  rw [← h']
  exact ⟨rfl, rfl, rfl, rfl, rfl⟩

/-- Unfolding `decodeEnrFromNode` on a shape-correct record whose
stages succeed. -/
theorem decodeEnrFromNode_eq (sig seqv : Node) (pairs : List Node) (s : Nat) (kv : KV)
    (hseq : bytesToIntNode seqv = .ok s)
    (heven : pairs.length % 2 = 0)
    (hkv : buildKVAux pairs [] = .ok kv) :
    decodeEnrFromNode (.list (sig :: seqv :: pairs)) = semanticOut s sig kv := by
  unfold decodeEnrFromNode
  dsimp only
  rw [if_neg (by simp only [List.length_cons]; omega)]
  simp only [List.getD_cons_zero, List.getD_cons_succ, List.length_cons,
    List.drop_succ_cons, List.drop_zero]
  rw [hseq, except_ok_bind]
  rw [if_neg (by omega)]
  rw [hkv, except_ok_bind]

/-- A successful `decodeEnrFromNode` on a shape-correct record implies
every intermediate stage succeeded. -/
theorem decodeEnrFromNode_ok_inv (sig seqv : Node) (pairs : List Node) (out : ENROut)
    (h : decodeEnrFromNode (.list (sig :: seqv :: pairs)) = .ok out) :
    ∃ s kv, bytesToIntNode seqv = .ok s ∧ pairs.length % 2 = 0
      ∧ buildKVAux pairs [] = .ok kv ∧ semanticOut s sig kv = .ok out := by
  unfold decodeEnrFromNode at h
  dsimp only at h
  rw [if_neg (by simp only [List.length_cons]; omega)] at h
  simp only [List.getD_cons_zero, List.getD_cons_succ, List.length_cons,
    List.drop_succ_cons, List.drop_zero] at h
  cases hseq : bytesToIntNode seqv with
  | error e => rw [hseq, except_error_bind] at h; simp at h
  | ok s =>
  rw [hseq, except_ok_bind] at h
  by_cases heven : pairs.length % 2 = 0
  · rw [if_neg (by omega)] at h
    cases hkv : buildKVAux pairs [] with
    | error e => rw [hkv, except_error_bind] at h; simp at h
    | ok kv =>
      rw [hkv, except_ok_bind] at h
      exact ⟨s, kv, rfl, heven, rfl, h⟩
  · rw [if_pos (by omega)] at h
    simp at h

/-- Running `decode_enr` on a string with the `enr:` marker whose payload
base64-decodes and RLP-decodes is the record stage on the decoded
node. -/
theorem decode_enr_pipeline (enr : String) (payload : List Char) (raw : List Nat)
    (node : Node)
    (hd : enr.data = 'e' :: 'n' :: 'r' :: ':' :: payload)
    (hb : b64urlDecodeNopad payload = .ok raw)
    (hr : rlp_decode raw = .ok node) :
    decode_enr enr = decodeEnrFromNode node := by
  obtain ⟨d⟩ := enr
  unfold decode_enr
  simp only at hd
  rw [hd]
  show (do
    let raw ← b64urlDecodeNopad payload
    let node ← rlp_decode raw
    decodeEnrFromNode node) = decodeEnrFromNode node
  rw [hb, except_ok_bind, hr, except_ok_bind]

/-- Wellformed pair lists have even length. -/
theorem wfPairs_even : ∀ pairs : List Node, wfPairs pairs = true → pairs.length % 2 = 0
  | [], _ => rfl
  | _ :: _ :: rest, h => by
    simp only [wfPairs, Bool.and_eq_true] at h
    have := wfPairs_even rest h.2
    simp only [List.length_cons]
    omega
  | [_], h => by simp [wfPairs] at h

/-- A successful lookup comes from an entry of the map. -/
theorem kvGet?_mem (kv : KV) (k : List Nat) (v : Node) (h : kvGet? kv k = some v) :
    (k, v) ∈ kv := by
  unfold kvGet? at h
  cases hf : List.find? (fun p => decide (p.1 = k)) kv with
  | none => rw [hf] at h; simp at h
  | some q =>
    rw [hf] at h
    simp only [Option.map_some'] at h
    have hmem := List.mem_of_find?_eq_some hf
    have hq1 : q.1 = k := by
      have := List.find?_some hf
      simpa using this
    injection h with h2
    have : q = (k, v) := by
      obtain ⟨q1, q2⟩ := q
      simp only at hq1 h2
      rw [hq1, h2]
    rw [← this]
    exact hmem

/-- The extras view never contains a well-known key. -/
theorem extrasOf_excludes (kv : KV) (k : List Nat) (hk : k ∈ wellKnownKeys) :
    ∀ p ∈ extrasOf kv, p.1 ≠ k := by
  intro p hp
  unfold extrasOf at hp
  rw [List.mem_map] at hp
  obtain ⟨q, hq, hqe⟩ := hp
  rw [List.mem_filter] at hq
  have hnotwk : q.1 ∉ wellKnownKeys := by
    have := hq.2
    simpa using this
  rw [← hqe]
  simp only
  intro hcontra
  rw [hcontra] at hnotwk
  exact hnotwk hk

/-- An entry of the map appears in the extras view (rendered bare for a
non-bytes value) when its key is not well-known. -/
theorem extrasOf_mem_of_mem (kv : KV) (k : List Nat) (v : Node)
    (hmem : (k, v) ∈ kv) (hk : k ∉ wellKnownKeys) (hnb : v.isBytes = false) :
    (k, ExtraVal.value v) ∈ extrasOf kv := by
  unfold extrasOf
  rw [List.mem_map]
  refine ⟨(k, v), ?_, ?_⟩
  · rw [List.mem_filter]
    exact ⟨hmem, by simpa using hk⟩
  · cases v with
    | bytes b => simp [Node.isBytes] at hnb
    | list l => rfl

/-- An entry of the map appears unconverted in the raw view when its
value is not bytes. -/
theorem rawKvView_mem_of_mem (kv : KV) (k : List Nat) (v : Node)
    (hmem : (k, v) ∈ kv) (hnb : v.isBytes = false) :
    (k, RawKVVal.node v) ∈ rawKvView kv := by
  unfold rawKvView
  rw [List.mem_map]
  refine ⟨(k, v), hmem, ?_⟩
  cases v with
  | bytes b => simp [Node.isBytes] at hnb
  | list l => rfl

/-- A successful pair loop implies every key element was a UTF-8 byte
string. -/
theorem buildKVAux_keys : ∀ (pairs : List Node) (kv0 kv : KV),
    buildKVAux pairs kv0 = .ok kv →
    ∀ q ∈ chunkPairs pairs, ∃ kb, q.1 = Node.bytes kb ∧ utf8Valid kb = true
  | [], _, _, _, q, hq => by simp [chunkPairs] at hq
  | kRaw :: vRaw :: rest, kv0, kv, h, q, hq => by
    cases kRaw with
    | list l => simp [buildKVAux] at h
    | bytes kb =>
      simp only [buildKVAux] at h
      split at h
      · rename_i hutf
        rw [show chunkPairs (Node.bytes kb :: vRaw :: rest) =
            (Node.bytes kb, vRaw) :: chunkPairs rest from rfl] at hq
        rcases List.mem_cons.1 hq with hq1 | hq2
        · exact ⟨kb, by rw [hq1], hutf⟩
        · exact buildKVAux_keys rest _ kv h q hq2
      · simp at h
  | [_], _, _, h, _, _ => by simp [buildKVAux] at h

/-- C3: for a record accepted by `decode_enr` (reached through the
marker/base64/RLP pipeline), element 0 is stored as the signature —
rendered from its bytes, or as the empty-bytes rendering when it is not
a byte string (`signatureHex`) — element 1 is decoded into the sequence
number, and the remaining elements are consumed two at a time in input
order with last-write-wins semantics: the flattened map's lookup is
exactly `specLastLookup`, the normalized value of the LAST pair with
that key (so a duplicated key maps to its second value, and an
empty-list value is normalized to empty bytes by `normVal`). -/
theorem C3_record_construction (enr : String) (payload : List Char) (raw : List Nat)
    (sig seqv : Node) (pairs : List Node) (kv : KV) (out : ENROut)
    (hd : enr.data = 'e' :: 'n' :: 'r' :: ':' :: payload)
    (hb : b64urlDecodeNopad payload = .ok raw)
    (hr : rlp_decode raw = .ok (.list (sig :: seqv :: pairs)))
    (hkv : buildKVAux pairs [] = .ok kv)
    (hout : decode_enr enr = .ok out) :
    out.signature = signatureHex sig
    ∧ (∀ l, sig = .list l → out.signature = hex0x [])
    ∧ bytesToIntNode seqv = .ok out.seq
    ∧ out.raw_kv = rawKvView kv
    ∧ (∀ k, kvGet? kv k = specLastLookup pairs k) := by
  rw [decode_enr_pipeline enr payload raw _ hd hb hr] at hout
  obtain ⟨s, kv', hseq, heven, hkv', hsem⟩ := decodeEnrFromNode_ok_inv _ _ _ _ hout
  rw [hkv] at hkv'
  injection hkv' with hkveq
  subst hkveq
  obtain ⟨hseqf, hsigf, hraw, _, _⟩ := semanticOut_inv _ _ _ _ hsem
  refine ⟨hsigf, ?_, ?_, hraw, ?_⟩
  · intro l hl
    rw [hsigf, hl]
    rfl
  · rw [hseqf]
    exact hseq
  · intro k
    have hlook := buildKVAux_lookup pairs [] kv hkv k
    have h0 : kvGet? ([] : KV) k = none := rfl
    rw [hlook, h0]
    cases specLastLookup pairs k <;> rfl

/-- Witness for C3 on a concrete record with a duplicated key: the
payload decodes to `[0xaa, 0x05, "a", 0x01, "a", 0x02]`, and the
flattened map sends `"a"` to the SECOND value `0x02`. -/
theorem C3_record_construction_witness :
    ∃ out, decode_enr "enr:x4GqBWEBYQI" = .ok out
      ∧ out.signature = hex0x [0xAA]
      ∧ bytesToIntNode (.bytes [0x05]) = .ok out.seq
      ∧ kvGet? [([0x61], Node.bytes [0x02])] [0x61] =
          specLastLookup [Node.bytes [0x61], Node.bytes [0x01],
            Node.bytes [0x61], Node.bytes [0x02]] [0x61]
      ∧ specLastLookup [Node.bytes [0x61], Node.bytes [0x01],
          Node.bytes [0x61], Node.bytes [0x02]] [0x61] = some (Node.bytes [0x02]) := by
  have hok : (decode_enr "enr:x4GqBWEBYQI").isOk = true := rfl
  cases hout : decode_enr "enr:x4GqBWEBYQI" with
  | error e => rw [hout] at hok; simp [Except.isOk, Except.toBool] at hok
  | ok out =>
    have hc := C3_record_construction "enr:x4GqBWEBYQI" "x4GqBWEBYQI".data
      [0xC7, 0x81, 0xAA, 0x05, 0x61, 0x01, 0x61, 0x02]
      (.bytes [0xAA]) (.bytes [0x05])
      [Node.bytes [0x61], Node.bytes [0x01], Node.bytes [0x61], Node.bytes [0x02]]
      [([0x61], Node.bytes [0x02])] out rfl rfl rfl rfl hout
    exact ⟨out, rfl, hc.1, hc.2.2.1, hc.2.2.2.2 [0x61], rfl⟩

/-- C7: the numeric-field decoder `_bytes_to_int` returns the
big-endian unsigned integer of a byte string and 0 on empty bytes, and
this decoding is what `decode_enr` applies to the sequence number
(element 1), to each present port-like field `udp`, `tcp`, `quic`,
`udp6`, `tcp6`, `quic6`, and to `cgc`. -/
theorem C7_big_endian_numeric_fields (enr : String) (payload : List Char) (raw : List Nat)
    (sig seqv : Node) (pairs : List Node) (kv : KV) (out : ENROut)
    (hd : enr.data = 'e' :: 'n' :: 'r' :: ':' :: payload)
    (hb : b64urlDecodeNopad payload = .ok raw)
    (hr : rlp_decode raw = .ok (.list (sig :: seqv :: pairs)))
    (hkv : buildKVAux pairs [] = .ok kv)
    (hwf : wfKV kv = true)
    (hout : decode_enr enr = .ok out) :
    (∀ b, pyBytesToInt b = beNat b)
    ∧ pyBytesToInt [] = 0
    ∧ (∀ sb, seqv = .bytes sb → out.seq = beNat sb)
    ∧ (∀ u, kvGet? kv (asciiBytes "udp") = some (.bytes u) → out.udp = some (beNat u))
    ∧ (∀ u, kvGet? kv (asciiBytes "tcp") = some (.bytes u) → out.tcp = some (beNat u))
    ∧ (∀ u, kvGet? kv (asciiBytes "quic") = some (.bytes u) → out.quic = some (beNat u))
    ∧ (∀ u, kvGet? kv (asciiBytes "udp6") = some (.bytes u) → out.udp6 = some (beNat u))
    ∧ (∀ u, kvGet? kv (asciiBytes "tcp6") = some (.bytes u) → out.tcp6 = some (beNat u))
    ∧ (∀ u, kvGet? kv (asciiBytes "quic6") = some (.bytes u) → out.quic6 = some (beNat u))
    ∧ (∀ u, kvGet? kv (asciiBytes "cgc") = some (.bytes u) → out.cgc = some (beNat u)) := by
  have hpy : ∀ b : List Nat, pyBytesToInt b = beNat b := by
    intro b
    cases b with
    | nil => rfl
    | cons x xs => rfl
  rw [decode_enr_pipeline enr payload raw _ hd hb hr] at hout
  obtain ⟨s, kv', hseq, heven, hkv', hsem⟩ := decodeEnrFromNode_ok_inv _ _ _ _ hout
  rw [hkv] at hkv'
  injection hkv' with hkveq
  subst hkveq
  obtain ⟨out', hsem', hseq', _, _, _, _, _, hudp, htcp, hquic, hudp6, htcp6, hquic6,
    hcgc, _⟩ := semanticOut_ok s sig kv hwf
  rw [hsem] at hsem'
  injection hsem' with houteq
  subst houteq
  refine ⟨hpy, rfl, ?_, ?_, ?_, ?_, ?_, ?_, ?_, ?_⟩
  · intro sb hsb
    rw [hsb] at hseq
    injection hseq with hs
    rw [hseq', ← hs]
    exact (hpy sb).symm ▸ rfl
  · intro u hu
    rw [hudp u hu, hpy u]
  · intro u hu
    rw [htcp u hu, hpy u]
  · intro u hu
    rw [hquic u hu, hpy u]
  · intro u hu
    rw [hudp6 u hu, hpy u]
  · intro u hu
    rw [htcp6 u hu, hpy u]
  · intro u hu
    rw [hquic6 u hu, hpy u]
  · intro u hu
    rw [hcgc u hu, hpy u]

/-- Witness for C7 on a concrete record with sequence bytes `0x07` and
`udp` bytes `0x1f 0x90`: the sequence decodes to 7 and the port to
8080, both big-endian. -/
theorem C7_big_endian_numeric_fields_witness :
    ∃ out, decode_enr "enr:yYAHg3VkcIIfkA" = .ok out
      ∧ out.seq = beNat [0x07] ∧ out.udp = some (beNat [0x1F, 0x90])
      ∧ beNat [0x07] = 7 ∧ beNat [0x1F, 0x90] = 8080 := by
  have hok : (decode_enr "enr:yYAHg3VkcIIfkA").isOk = true := rfl
  cases hout : decode_enr "enr:yYAHg3VkcIIfkA" with
  | error e => rw [hout] at hok; simp [Except.isOk, Except.toBool] at hok
  | ok out =>
    have hc := C7_big_endian_numeric_fields "enr:yYAHg3VkcIIfkA" "yYAHg3VkcIIfkA".data
      [0xC9, 0x80, 0x07, 0x83, 0x75, 0x64, 0x70, 0x82, 0x1F, 0x90]
      (.bytes []) (.bytes [0x07])
      [Node.bytes [0x75, 0x64, 0x70], Node.bytes [0x1F, 0x90]]
      [([0x75, 0x64, 0x70], Node.bytes [0x1F, 0x90])] out
      rfl rfl rfl rfl rfl hout
    exact ⟨out, rfl, hc.2.2.1 [0x07] rfl, hc.2.2.2.1 [0x1F, 0x90] rfl, rfl, rfl⟩

/-- C5: for an `eth2` value of exactly 16 bytes, the interpreter
returns `fork_digest` as the hex of bytes 0-3, `next_fork_version` as
the hex of bytes 4-7, and `next_fork_epoch` as the big-endian unsigned
integer of bytes 8-15; for any other length it returns the raw hex in a
length-mismatch rendering; and in both cases the surrounding
`decode_enr` call still succeeds rather than raising an error. -/
theorem C5_eth2_forkid (enr : String) (payload : List Char) (raw : List Nat)
    (sig : Node) (sb : List Nat) (pairs : List Node) (kv : KV) (v : List Nat)
    (hd : enr.data = 'e' :: 'n' :: 'r' :: ':' :: payload)
    (hb : b64urlDecodeNopad payload = .ok raw)
    (hr : rlp_decode raw = .ok (.list (sig :: .bytes sb :: pairs)))
    (hwfp : wfPairs pairs = true)
    (hkv : buildKVAux pairs [] = .ok kv)
    (heth : kvGet? kv (asciiBytes "eth2") = some (.bytes v)) :
    ∃ out, decode_enr enr = .ok out
      ∧ out.eth2 = some (decodeEth2Forkid v)
      ∧ (v.length = 16 → decodeEth2Forkid v =
          .forkid (hex0x (v.take 4)) (hex0x ((v.drop 4).take 4)) (beNat (v.drop 8)))
      ∧ (v.length ≠ 16 → decodeEth2Forkid v = .mismatch (hex0x v)) := by
  have hwf : wfKV kv = true := buildKVAux_wf pairs [] kv hwfp rfl hkv
  obtain ⟨out, hsem, _, _, _, _, _, _, _, _, _, _, _, _, _, heth2⟩ :=
    semanticOut_ok (pyBytesToInt sb) sig kv hwf
  have hpipe := decode_enr_pipeline enr payload raw _ hd hb hr
  have hnode := decodeEnrFromNode_eq sig (.bytes sb) pairs (pyBytesToInt sb) kv rfl
    (wfPairs_even pairs hwfp) hkv
  refine ⟨out, ?_, heth2 v heth, ?_, ?_⟩
  · rw [hpipe, hnode, hsem]
  · intro h16
    unfold decodeEth2Forkid
    rw [if_neg (by omega)]
    have h1 : pySlice v 0 4 = v.take 4 := by
      unfold pySlice
      rw [List.drop_zero]
    have h2 : pySlice v 4 8 = (v.drop 4).take 4 := rfl
    have h3 : pySlice v 8 16 = v.drop 8 := by
      unfold pySlice
      apply List.take_of_length_le
      rw [List.length_drop]
      omega
    rw [h1, h2, h3]
  · intro hne
    unfold decodeEth2Forkid
    rw [if_pos hne]

/-- Witness for C5 at two concrete records: one whose `eth2` value is
the 16 bytes `00..0f` (split into digest, version and epoch) and one
whose `eth2` value is the 3 bytes `01 02 03` (mismatch rendering). -/
theorem C5_eth2_forkid_witness :
    (∃ out, decode_enr "enr:2ICAhGV0aDKQAAECAwQFBgcICQoLDA0ODw" = .ok out
      ∧ out.eth2 = some (.forkid (hex0x [0x00, 0x01, 0x02, 0x03])
          (hex0x [0x04, 0x05, 0x06, 0x07])
          (beNat [0x08, 0x09, 0x0A, 0x0B, 0x0C, 0x0D, 0x0E, 0x0F])))
    ∧ (∃ out, decode_enr "enr:y4CAhGV0aDKDAQID" = .ok out
      ∧ out.eth2 = some (.mismatch (hex0x [0x01, 0x02, 0x03]))) := by
  constructor
  · obtain ⟨out', hdec, heth2, h16, _⟩ := C5_eth2_forkid
      "enr:2ICAhGV0aDKQAAECAwQFBgcICQoLDA0ODw" "2ICAhGV0aDKQAAECAwQFBgcICQoLDA0ODw".data
      [0xD8, 0x80, 0x80, 0x84, 0x65, 0x74, 0x68, 0x32, 0x90,
       0x00, 0x01, 0x02, 0x03, 0x04, 0x05, 0x06, 0x07,
       0x08, 0x09, 0x0A, 0x0B, 0x0C, 0x0D, 0x0E, 0x0F]
      (.bytes []) []
      [Node.bytes [0x65, 0x74, 0x68, 0x32],
       Node.bytes [0x00, 0x01, 0x02, 0x03, 0x04, 0x05, 0x06, 0x07,
         0x08, 0x09, 0x0A, 0x0B, 0x0C, 0x0D, 0x0E, 0x0F]]
      [([0x65, 0x74, 0x68, 0x32],
        Node.bytes [0x00, 0x01, 0x02, 0x03, 0x04, 0x05, 0x06, 0x07,
          0x08, 0x09, 0x0A, 0x0B, 0x0C, 0x0D, 0x0E, 0x0F])]
      [0x00, 0x01, 0x02, 0x03, 0x04, 0x05, 0x06, 0x07,
       0x08, 0x09, 0x0A, 0x0B, 0x0C, 0x0D, 0x0E, 0x0F]
      rfl rfl rfl rfl rfl rfl
    refine ⟨out', hdec, ?_⟩
    rw [heth2, h16 rfl]
    rfl
  · obtain ⟨out', hdec, heth2, _, hne⟩ := C5_eth2_forkid
      "enr:y4CAhGV0aDKDAQID" "y4CAhGV0aDKDAQID".data
      [0xCB, 0x80, 0x80, 0x84, 0x65, 0x74, 0x68, 0x32, 0x83, 0x01, 0x02, 0x03]
      (.bytes []) []
      [Node.bytes [0x65, 0x74, 0x68, 0x32], Node.bytes [0x01, 0x02, 0x03]]
      [([0x65, 0x74, 0x68, 0x32], Node.bytes [0x01, 0x02, 0x03])]
      [0x01, 0x02, 0x03]
      rfl rfl rfl rfl rfl rfl
    refine ⟨out', hdec, ?_⟩
    rw [heth2, hne (by decide)]

/-- C10: a decoded record containing the key `id` treats it as
well-known: its byte value is rendered as a UTF-8 string when the bytes
are valid UTF-8 and as the raw bytes otherwise (`_try_utf8`), and the
key is excluded from the extras map. -/
theorem C10_id_well_known (enr : String) (payload : List Char) (raw : List Nat)
    (sig : Node) (sb : List Nat) (pairs : List Node) (kv : KV) (b : List Nat)
    (hd : enr.data = 'e' :: 'n' :: 'r' :: ':' :: payload)
    (hb : b64urlDecodeNopad payload = .ok raw)
    (hr : rlp_decode raw = .ok (.list (sig :: .bytes sb :: pairs)))
    (hwfp : wfPairs pairs = true)
    (hkv : buildKVAux pairs [] = .ok kv)
    (hid : kvGet? kv (asciiBytes "id") = some (.bytes b)) :
    ∃ out, decode_enr enr = .ok out
      ∧ out.idView = some (tryUtf8 b)
      ∧ (utf8Valid b = true → out.idView = some (.utf8Str b))
      ∧ (utf8Valid b = false → out.idView = some (.raw b))
      ∧ (∀ p ∈ out.extras, p.1 ≠ asciiBytes "id") := by
  have hwf : wfKV kv = true := buildKVAux_wf pairs [] kv hwfp rfl hkv
  obtain ⟨out, hsem, _, _, _, hex, _, hidf, _⟩ :=
    semanticOut_ok (pyBytesToInt sb) sig kv hwf
  have hpipe := decode_enr_pipeline enr payload raw _ hd hb hr
  have hnode := decodeEnrFromNode_eq sig (.bytes sb) pairs (pyBytesToInt sb) kv rfl
    (wfPairs_even pairs hwfp) hkv
  have hidv := hidf b hid
  refine ⟨out, by rw [hpipe, hnode, hsem], hidv, ?_, ?_, ?_⟩
  · intro hu
    rw [hidv]
    unfold tryUtf8
    rw [if_pos hu]
  · intro hu
    rw [hidv]
    unfold tryUtf8
    rw [if_neg (by simp [hu])]
  · rw [hex]
    exact extrasOf_excludes kv (asciiBytes "id") (by decide)

/-- Witness for C10 on a concrete record with pair `id -> "v4"`: the
value is valid UTF-8 and is rendered as the string, and `id` does not
appear among the extras. -/
theorem C10_id_well_known_witness :
    ∃ out, decode_enr "enr:yICAgmlkgnY0" = .ok out
      ∧ out.idView = some (.utf8Str [0x76, 0x34])
      ∧ (∀ p ∈ out.extras, p.1 ≠ asciiBytes "id") := by
  obtain ⟨out, hdec, _, hu, _, hex⟩ := C10_id_well_known
    "enr:yICAgmlkgnY0" "yICAgmlkgnY0".data
    [0xC8, 0x80, 0x80, 0x82, 0x69, 0x64, 0x82, 0x76, 0x34]
    (.bytes []) []
    [Node.bytes [0x69, 0x64], Node.bytes [0x76, 0x34]]
    [([0x69, 0x64], Node.bytes [0x76, 0x34])]
    [0x76, 0x34]
    rfl rfl rfl rfl rfl rfl
  exact ⟨out, hdec, hu rfl, hex⟩

/-- Counterexample to C9 as stated: the record
`[sig, seq, "udp", [b""]]` has a pair whose decoded value is the
non-empty list `[b""]`, yet `decode_enr` FAILS — the key `udp` is
well-known and `int.from_bytes` on a Python list raises `TypeError`.
The base64url payload of that record is `yICAg3VkcMGA`. -/
theorem C9_counterexample :
    rlp_decode [0xC8, 0x80, 0x80, 0x83, 0x75, 0x64, 0x70, 0xC1, 0x80] =
      .ok (.list [.bytes [], .bytes [], .bytes [0x75, 0x64, 0x70], .list [.bytes []]])
    ∧ b64urlDecodeNopad "yICAg3VkcMGA".data =
      .ok [0xC8, 0x80, 0x80, 0x83, 0x75, 0x64, 0x70, 0xC1, 0x80]
    ∧ decode_enr "enr:yICAg3VkcMGA" = .error .typeError := ⟨rfl, rfl, rfl⟩

/-- C9 (amended): for every pair whose key is NOT one of the well-known
keys and whose decoded value is a non-empty list, `decode_enr` does not
fail (on a record whose well-known keys all hold byte values): the
nested list is stored unchanged in the flattened map, appears
unconverted in the `raw_kv` rendering, and is reported under extras as
a bare value with no hex, UTF-8 or integer rendering. -/
theorem C9_nested_list_value (enr : String) (payload : List Char) (raw : List Nat)
    (sig : Node) (sb : List Nat) (pairs : List Node) (kv : KV)
    (kb : List Nat) (x : Node) (xs : List Node)
    (hd : enr.data = 'e' :: 'n' :: 'r' :: ':' :: payload)
    (hb : b64urlDecodeNopad payload = .ok raw)
    (hr : rlp_decode raw = .ok (.list (sig :: .bytes sb :: pairs)))
    (hwfp : wfPairs pairs = true)
    (hkv : buildKVAux pairs [] = .ok kv)
    (hknw : kb ∉ wellKnownKeys)
    (hlast : specLastLookup pairs kb = some (.list (x :: xs))) :
    ∃ out, decode_enr enr = .ok out
      ∧ kvGet? kv kb = some (.list (x :: xs))
      ∧ (kb, RawKVVal.node (.list (x :: xs))) ∈ out.raw_kv
      ∧ (kb, ExtraVal.value (.list (x :: xs))) ∈ out.extras := by
  have hwf : wfKV kv = true := buildKVAux_wf pairs [] kv hwfp rfl hkv
  obtain ⟨out, hsem, _, _, hraw, hex, _⟩ :=
    semanticOut_ok (pyBytesToInt sb) sig kv hwf
  have hpipe := decode_enr_pipeline enr payload raw _ hd hb hr
  have hnode := decodeEnrFromNode_eq sig (.bytes sb) pairs (pyBytesToInt sb) kv rfl
    (wfPairs_even pairs hwfp) hkv
  have hget : kvGet? kv kb = some (.list (x :: xs)) := by
    rw [buildKVAux_lookup pairs [] kv hkv kb, hlast]
    rfl
  have hmem := kvGet?_mem kv kb _ hget
  refine ⟨out, by rw [hpipe, hnode, hsem], hget, ?_, ?_⟩
  · rw [hraw]
    exact rawKvView_mem_of_mem kv kb _ hmem rfl
  · rw [hex]
    exact extrasOf_mem_of_mem kv kb _ hmem hknw rfl

/-- Witness for the amended C9 on a concrete record with the
non-well-known key `"xx"` mapped to the non-empty list `[b""]`. -/
theorem C9_nested_list_value_witness :
    ∃ out, decode_enr "enr:x4CAgnh4wYA" = .ok out
      ∧ kvGet? [([0x78, 0x78], Node.list [.bytes []])] [0x78, 0x78] =
          some (.list [.bytes []])
      ∧ ([0x78, 0x78], RawKVVal.node (.list [.bytes []])) ∈ out.raw_kv
      ∧ ([0x78, 0x78], ExtraVal.value (.list [.bytes []])) ∈ out.extras := by
  obtain ⟨out, hdec, hget, hraw, hex⟩ := C9_nested_list_value
    "enr:x4CAgnh4wYA" "x4CAgnh4wYA".data
    [0xC7, 0x80, 0x80, 0x82, 0x78, 0x78, 0xC1, 0x80]
    (.bytes []) []
    [Node.bytes [0x78, 0x78], Node.list [.bytes []]]
    [([0x78, 0x78], Node.list [.bytes []])]
    [0x78, 0x78] (.bytes []) []
    rfl rfl rfl rfl rfl (by decide) rfl
  exact ⟨out, hdec, hget, hraw, hex⟩

/-- C6: `classify_enr` returns the Mixed string exactly when a
consensus-layer key (`eth2`, `attnets`, `syncnets`, `cgc`, `nfd`) and
an execution-layer key (`eth`, `snap`, `les`) are both present, the CL
string when only the first kind is present, the EL string when only the
second, and the Unknown string when neither; and the classification
depends only on key presence, never on values.  It is total (a plain
`String`-valued function), so it can never reject a record. -/
theorem C6_classify_enr (kv : KV) :
    ((classify_enr kv = "cl+el (mixed ENR)") ↔
      ((kvHasKey kv (asciiBytes "eth2") || kvHasKey kv (asciiBytes "attnets") ||
        kvHasKey kv (asciiBytes "syncnets") || kvHasKey kv (asciiBytes "cgc") ||
        kvHasKey kv (asciiBytes "nfd")) = true
      ∧ (kvHasKey kv (asciiBytes "eth") || kvHasKey kv (asciiBytes "snap") ||
        kvHasKey kv (asciiBytes "les")) = true))
    ∧ ((classify_enr kv = "consensus-layer (CL)") ↔
      ((kvHasKey kv (asciiBytes "eth2") || kvHasKey kv (asciiBytes "attnets") ||
        kvHasKey kv (asciiBytes "syncnets") || kvHasKey kv (asciiBytes "cgc") ||
        kvHasKey kv (asciiBytes "nfd")) = true
      ∧ (kvHasKey kv (asciiBytes "eth") || kvHasKey kv (asciiBytes "snap") ||
        kvHasKey kv (asciiBytes "les")) = false))
    ∧ ((classify_enr kv = "execution-layer (EL)") ↔
      ((kvHasKey kv (asciiBytes "eth2") || kvHasKey kv (asciiBytes "attnets") ||
        kvHasKey kv (asciiBytes "syncnets") || kvHasKey kv (asciiBytes "cgc") ||
        kvHasKey kv (asciiBytes "nfd")) = false
      ∧ (kvHasKey kv (asciiBytes "eth") || kvHasKey kv (asciiBytes "snap") ||
        kvHasKey kv (asciiBytes "les")) = true))
    ∧ ((classify_enr kv = "unknown/transport-only") ↔
      ((kvHasKey kv (asciiBytes "eth2") || kvHasKey kv (asciiBytes "attnets") ||
        kvHasKey kv (asciiBytes "syncnets") || kvHasKey kv (asciiBytes "cgc") ||
        kvHasKey kv (asciiBytes "nfd")) = false
      ∧ (kvHasKey kv (asciiBytes "eth") || kvHasKey kv (asciiBytes "snap") ||
        kvHasKey kv (asciiBytes "les")) = false))
    ∧ (∀ kv' : KV, (∀ k : List Nat, kvHasKey kv k = kvHasKey kv' k) →
        classify_enr kv = classify_enr kv') := by
  refine ⟨?_, ?_, ?_, ?_, ?_⟩
  · cases hcl : (kvHasKey kv (asciiBytes "eth2") || kvHasKey kv (asciiBytes "attnets") ||
        kvHasKey kv (asciiBytes "syncnets") || kvHasKey kv (asciiBytes "cgc") ||
        kvHasKey kv (asciiBytes "nfd")) <;>
      cases hel : (kvHasKey kv (asciiBytes "eth") || kvHasKey kv (asciiBytes "snap") ||
        kvHasKey kv (asciiBytes "les")) <;>
      simp +decide [classify_enr, hcl, hel]
  · cases hcl : (kvHasKey kv (asciiBytes "eth2") || kvHasKey kv (asciiBytes "attnets") ||
        kvHasKey kv (asciiBytes "syncnets") || kvHasKey kv (asciiBytes "cgc") ||
        kvHasKey kv (asciiBytes "nfd")) <;>
      cases hel : (kvHasKey kv (asciiBytes "eth") || kvHasKey kv (asciiBytes "snap") ||
        kvHasKey kv (asciiBytes "les")) <;>
      simp +decide [classify_enr, hcl, hel]
  · cases hcl : (kvHasKey kv (asciiBytes "eth2") || kvHasKey kv (asciiBytes "attnets") ||
        kvHasKey kv (asciiBytes "syncnets") || kvHasKey kv (asciiBytes "cgc") ||
        kvHasKey kv (asciiBytes "nfd")) <;>
      cases hel : (kvHasKey kv (asciiBytes "eth") || kvHasKey kv (asciiBytes "snap") ||
        kvHasKey kv (asciiBytes "les")) <;>
      simp +decide [classify_enr, hcl, hel]
  · cases hcl : (kvHasKey kv (asciiBytes "eth2") || kvHasKey kv (asciiBytes "attnets") ||
        kvHasKey kv (asciiBytes "syncnets") || kvHasKey kv (asciiBytes "cgc") ||
        kvHasKey kv (asciiBytes "nfd")) <;>
      cases hel : (kvHasKey kv (asciiBytes "eth") || kvHasKey kv (asciiBytes "snap") ||
        kvHasKey kv (asciiBytes "les")) <;>
      simp +decide [classify_enr, hcl, hel]
  · intro kv' hpres
    unfold classify_enr
    rw [hpres (asciiBytes "eth2"), hpres (asciiBytes "attnets"),
      hpres (asciiBytes "syncnets"), hpres (asciiBytes "cgc"), hpres (asciiBytes "nfd"),
      hpres (asciiBytes "eth"), hpres (asciiBytes "snap"), hpres (asciiBytes "les")]

/-- Witness for C6: two maps holding the `eth2` key with different
values classify identically, as consensus-layer. -/
theorem C6_classify_enr_witness :
    classify_enr [([0x65, 0x74, 0x68, 0x32], Node.bytes [])] =
      classify_enr [([0x65, 0x74, 0x68, 0x32], Node.bytes [0x01])]
    ∧ classify_enr [([0x65, 0x74, 0x68, 0x32], Node.bytes [])] = "consensus-layer (CL)" := by
  constructor
  · exact (C6_classify_enr [([0x65, 0x74, 0x68, 0x32], .bytes [])]).2.2.2.2
      [([0x65, 0x74, 0x68, 0x32], .bytes [0x01])] (fun k => rfl)
  · rfl

/-- Counterexample to C2 as stated: the remainder `xYMBAgMF!!!!` is not
valid URL-safe base64 — it contains `!`, a character outside the
alphabet — yet `decode_enr` SUCCEEDS and yields a record with sequence
number 5, because Python's lenient `base64` decoder silently discards
characters outside the alphabet before decoding. -/
theorem C2_counterexample :
    b64DigitVal '!' = none
    ∧ '!' ∈ "enr:xYMBAgMF!!!!".data
    ∧ (∃ out, decode_enr "enr:xYMBAgMF!!!!" = .ok out ∧ out.seq = 5) := by
  refine ⟨rfl, by decide, ?_⟩
  have hseq : (decode_enr "enr:xYMBAgMF!!!!").toOption.map (fun o => o.seq) = some 5 := rfl
  cases hout : decode_enr "enr:xYMBAgMF!!!!" with
  | error e => rw [hout] at hseq; simp [Except.toOption] at hseq
  | ok out =>
    rw [hout] at hseq
    simp only [Except.toOption, Option.map_some'] at hseq
    injection hseq with hs
    exact ⟨out, rfl, hs⟩

/-- C2 (amended): `decode_enr` fails with `InvalidRecordFormat` (a
`ValueError`) when the input does not start with the literal `enr:`
marker; when the base64 decoding of the remainder fails (characters
outside the base64url alphabet are DISCARDED by Python's lenient
decoder before decoding, so only a wrong number of remaining data
characters or bad padding fails — see `C2_counterexample`); when the
RLP decode of the payload fails; when the decoded top-level node is
not a list of at least 2 elements; when (the sequence element having
decoded) the count of elements after the first two is odd; and a
record is produced only if every key element is a byte string whose
bytes are valid UTF-8 — a malformed input yields no record. -/
theorem C2_record_rejection :
    (∀ d : List Char, (∀ payload, d ≠ 'e' :: 'n' :: 'r' :: ':' :: payload) →
      decode_enr ⟨d⟩ = .error (.valueError "Not an ENR string (must start with enr:)"))
    ∧ (∀ (enr : String) payload e, enr.data = 'e' :: 'n' :: 'r' :: ':' :: payload →
      b64urlDecodeNopad payload = .error e → decode_enr enr = .error e)
    ∧ (∀ (enr : String) payload raw e, enr.data = 'e' :: 'n' :: 'r' :: ':' :: payload →
      b64urlDecodeNopad payload = .ok raw → rlp_decode raw = .error e →
      decode_enr enr = .error e)
    ∧ (∀ b, decodeEnrFromNode (.bytes b) =
      .error (.valueError "Invalid ENR RLP structure"))
    ∧ (∀ rlp : List Node, rlp.length < 2 → decodeEnrFromNode (.list rlp) =
      .error (.valueError "Invalid ENR RLP structure"))
    ∧ (∀ (sig seqv : Node) (pairs : List Node) (s : Nat),
      bytesToIntNode seqv = .ok s → pairs.length % 2 ≠ 0 →
      decodeEnrFromNode (.list (sig :: seqv :: pairs)) =
        .error (.valueError "Invalid ENR key/value pair count"))
    ∧ (∀ (sig seqv : Node) (pairs : List Node) (out : ENROut),
      decodeEnrFromNode (.list (sig :: seqv :: pairs)) = .ok out →
      ∀ q ∈ chunkPairs pairs, ∃ kb, q.1 = Node.bytes kb ∧ utf8Valid kb = true) := by
  refine ⟨?_, ?_, ?_, ?_, ?_, ?_, ?_⟩
  · intro d h
    unfold decode_enr
    split
    · rename_i payload heq
      exact absurd heq (h payload)
    · rfl
  · intro enr payload e hd hb
    obtain ⟨d⟩ := enr
    unfold decode_enr
    simp only at hd
    rw [hd]
    show (do
      let raw ← b64urlDecodeNopad payload
      let node ← rlp_decode raw
      decodeEnrFromNode node) = Except.error e
    rw [hb, except_error_bind]
  · intro enr payload raw e hd hb hr
    obtain ⟨d⟩ := enr
    unfold decode_enr
    simp only at hd
    rw [hd]
    show (do
      let raw ← b64urlDecodeNopad payload
      let node ← rlp_decode raw
      decodeEnrFromNode node) = Except.error e
    rw [hb, except_ok_bind, hr, except_error_bind]
  · intro b
    rfl
  · intro rlp h
    unfold decodeEnrFromNode
    dsimp only
    rw [if_pos h]
  · intro sig seqv pairs s hseq hodd
    unfold decodeEnrFromNode
    dsimp only
    rw [if_neg (by simp only [List.length_cons]; omega)]
    simp only [List.getD_cons_zero, List.getD_cons_succ, List.length_cons,
      List.drop_succ_cons, List.drop_zero]
    rw [hseq, except_ok_bind]
    rw [if_pos (by omega)]
  · intro sig seqv pairs out hout
    obtain ⟨s, kv, _, _, hkv, _⟩ := decodeEnrFromNode_ok_inv _ _ _ _ hout
    exact buildKVAux_keys pairs [] kv hkv

/-- Witness for the amended C2 at concrete inputs: a string without the
marker, a remainder whose data-character count is wrong, a payload
decoding to a non-list node, a record with an odd pair count, and a
well-formed record whose key is checked UTF-8. -/
theorem C2_record_rejection_witness :
    decode_enr "abc" = .error (.valueError "Not an ENR string (must start with enr:)")
    ∧ decode_enr "enr:A" =
      .error (.valueError "Invalid base64-encoded string: wrong number of data characters")
    ∧ decode_enr "enr:QQQQ" = .error (.valueError "Trailing bytes after RLP item")
    ∧ decodeEnrFromNode (.bytes [0x41]) = .error (.valueError "Invalid ENR RLP structure")
    ∧ decodeEnrFromNode (.list [.bytes [], .bytes [], .bytes []]) =
      .error (.valueError "Invalid ENR key/value pair count")
    ∧ (∃ kb, Node.bytes [0x69, 0x64] = Node.bytes kb ∧ utf8Valid kb = true) := by
  refine ⟨?_, ?_, ?_, ?_, ?_, ?_⟩
  · exact C2_record_rejection.1 "abc".data (by
      intro payload hc
      simp +decide at hc)
  · exact C2_record_rejection.2.1 "enr:A" "A".data
      (.valueError "Invalid base64-encoded string: wrong number of data characters")
      rfl rfl
  · exact C2_record_rejection.2.2.1 "enr:QQQQ" "QQQQ".data [0x41, 0x04, 0x10]
      (.valueError "Trailing bytes after RLP item") rfl rfl rfl
  · exact C2_record_rejection.2.2.2.1 [0x41]
  · exact C2_record_rejection.2.2.2.2.2.1 (.bytes []) (.bytes []) [.bytes []] 0 rfl
      (by decide)
  · have hok : (decodeEnrFromNode
        (.list [.bytes [], .bytes [], .bytes [0x69, 0x64], .bytes [0x76, 0x34]])).isOk
        = true := rfl
    cases hout : decodeEnrFromNode
        (.list [.bytes [], .bytes [], .bytes [0x69, 0x64], .bytes [0x76, 0x34]]) with
    | error e => rw [hout] at hok; simp [Except.isOk, Except.toBool] at hok
    | ok out =>
      exact C2_record_rejection.2.2.2.2.2.2 (.bytes []) (.bytes [])
        [.bytes [0x69, 0x64], .bytes [0x76, 0x34]] out hout
        (Node.bytes [0x69, 0x64], Node.bytes [0x76, 0x34]) (by decide)
